import Mathlib

/-!
Verification of the Data Quality Alert System core
(`issue.py`, `manager.py`, `email_reporter.py`) against its specification.

The Python source is shallowly embedded:
* `Issue` / `IssueCollection` from `issue.py`: an `IssueCollection` is a
  `List Issue`; `extra_data` is restricted to the four keys the reporter
  renders (`entity_ids`, `invalid_values`, `records`, `summary`), with dict
  insertion order modelled by association lists;
* raising Python code is modelled with `Except String`;
* the manager's check instances are modelled by a `Check` record carrying the
  `check_name` and the outcome of `run()` (a collection, or a raised message);
* the disabled-checks configuration (`CheckConfig.get_disabled_checks`, an
  external configuration collaborator) is passed as an explicit list argument.
-/

namespace DQAS

/-- `extra_data` payload of an issue, restricted to the four keys rendered by
`EmailReporter._format_extra_data`.  List items, record values and summary
values appear after Python `str()` conversion, i.e. as strings. -/
structure ExtraData where
  entity_ids : List String
  invalid_values : List String
  records : List (List (String × String))
  summary : List (String × String)
deriving DecidableEq, Repr

/-- The `{}` default that `Issue.__init__` stores when `extra_data` is falsy. -/
def emptyExtra : ExtraData := ⟨[], [], [], []⟩

/-- An `Issue` record (`issue.py`).  `details` is stored as `""` when absent,
`extra_data` as `{}` when falsy, exactly as in `Issue.__init__`. -/
structure Issue where
  check_name : String
  severity : String
  message : String
  details : String
  extra_data : ExtraData
deriving DecidableEq, Repr

/-- `Issue.VALID_SEVERITIES = {'low', 'medium', 'high'}`. -/
def VALID_SEVERITIES : List String := ["low", "medium", "high"]

/-- `Issue.__init__` followed by `Issue.validate`: stores the fields (with the
defaults for `details` and `extra_data`) and raises `ValueError` when
`check_name` is empty, `severity` is empty or not a valid severity, or
`message` is empty — in that order. -/
def Issue.mk? (check_name severity message : String) (details : Option String)
    (extra_data : Option ExtraData) : Except String Issue :=
  if check_name = "" then .error "check_name is required"
  else if severity = "" then .error "severity is required"
  else if severity ∈ VALID_SEVERITIES then
    if message = "" then .error "message is required"
    else .ok ⟨check_name, severity, message, details.getD "", extra_data.getD emptyExtra⟩
  else .error ("severity must be one of low, medium, high, got " ++ severity)

/-- One step of the loop in `IssueCollection.group_by_check`: a Python dict
keyed by `check_name` is modelled as an association list in key-insertion
order; a new key is appended at the end, an existing key has the issue
appended to its list. -/
def addToGroup : List (String × List Issue) → Issue → List (String × List Issue)
  | [], i => [(i.check_name, [i])]
  | (k, g) :: rest, i =>
      if k = i.check_name then (k, g ++ [i]) :: rest else (k, g) :: addToGroup rest i

/-- `IssueCollection.group_by_check` (`issue.py`): fold the dict-building loop
over the issues in insertion order. -/
def group_by_check (issues : List Issue) : List (String × List Issue) :=
  issues.foldl addToGroup []

/-- Membership lookup in the grouped association list (Python `grouped[k]`). -/
def lookupGroup (k : String) : List (String × List Issue) → Option (List Issue)
  | [] => none
  | (k', g) :: rest => if k' = k then some g else lookupGroup k rest

/-- Specification-side description of "first-seen order": keep each name's
first occurrence, dropping later duplicates. -/
def firstSeen : List String → List String
  | [] => []
  | a :: l => a :: firstSeen (l.filter (fun x => x ≠ a))
termination_by l => l.length
decreasing_by
  simp only [List.length_cons]
  exact Nat.lt_succ_of_le (List.length_filter_le _ _)

/-- Invariant: every issue stored in a group carries that group's key as its
`check_name`. -/
def GroupNamesOK (g : List (String × List Issue)) : Prop :=
  ∀ e ∈ g, ∀ i ∈ e.2, i.check_name = e.1

/-- Issue from the spec scenario: check "A" reporting invalid value
"Baghdad2". -/
def sampleIssueA : Issue :=
  ⟨"A", "high", "Invalid Values", "", ⟨[], ["Baghdad2"], [], []⟩⟩

/-- Issue from the spec scenario: check "B" reporting the identical message
and `extra_data`. -/
def sampleIssueB : Issue :=
  ⟨"B", "high", "Invalid Values", "", ⟨[], ["Baghdad2"], [], []⟩⟩

/-- A discovered check instance as the manager sees it: its `check_name`
(the class name, per `BaseCheck.__init__`) and the outcome of calling
`run()` — either the returned `IssueCollection` or the message of the raised
exception. -/
structure Check where
  check_name : String
  run : Except String (List Issue)

/-- The execution loop of `CheckManager.run_checks` (`manager.py`): for each
selected check, `run()` is called; on success the returned collection is
merged into the aggregate (`self.issues.extend`), on an exception the loop
catches it and calls `self.issues.add_issue(check_name, 'high',
'Error executing check', details=str(e))`.  `add_issue` itself validates the
new issue; were that validation to raise (empty `check_name`), the exception
would escape the loop — modelled by the `Option String` component carrying
the aggregate state at the raise. -/
def run_checks_loop (issues : List Issue) : List Check → List Issue × Option String
  | [] => (issues, none)
  | c :: rest =>
    match c.run with
    | .ok check_issues => run_checks_loop (issues ++ check_issues) rest
    | .error e =>
      match Issue.mk? c.check_name "high" "Error executing check" (some e) none with
      | .ok i => run_checks_loop (issues ++ [i]) rest
      | .error ve => (issues, some ve)

/-- A sample issue returned by a successfully running check. -/
def okIssue : Issue := ⟨"Ok1", "low", "found something", "", emptyExtra⟩

/-- Python `str.lower()` restricted to ASCII, as used on check and file
names: lower each character. -/
def str_lower (s : String) : String := ⟨s.data.map Char.toLower⟩

/-- `CheckManager._resolve_check_name` (`manager.py`): case-insensitive match
of the query first against the discovered checks' class names (in list
order), then against the file names of `file_to_class_map` (in dict insertion
order), returning the first matching class name, or `None`. -/
def _resolve_check_name (check_name : String) (all_checks : List Check)
    (file_to_class_map : List (String × String)) : Option String :=
  match all_checks.find? (fun c => str_lower c.check_name == str_lower check_name) with
  | some c => some c.check_name
  | none =>
    match file_to_class_map.find? (fun p => str_lower p.1 == str_lower check_name) with
    | some p => some p.2
    | none => none

/-- One iteration of the loop in `CheckManager._get_disabled_check_names`:
resolve a configured name; on success add it to the set (`set.add`, modelled
as append-if-absent on a duplicate-free list), on failure do nothing. -/
def disabledStep (all_checks : List Check) (file_to_class_map : List (String × String))
    (acc : List String) (disabled_name : String) : List String :=
  match _resolve_check_name disabled_name all_checks file_to_class_map with
  | some resolved => if resolved ∈ acc then acc else acc ++ [resolved]
  | none => acc

/-- `CheckManager._get_disabled_check_names` (`manager.py`): the configured
disabled names (`CheckConfig.get_disabled_checks()`, an external
configuration collaborator passed here as the `disabled_config` argument)
are resolved through `_resolve_check_name`; names that resolve are collected
into a set (modelled as a duplicate-free list in insertion order), names that
do not resolve are skipped. -/
def _get_disabled_check_names (disabled_config : List String)
    (all_checks : List Check) (file_to_class_map : List (String × String)) :
    List String :=
  if disabled_config.isEmpty then []
  else disabled_config.foldl (disabledStep all_checks file_to_class_map) []

/-- `CheckManager._format_check_name` (`manager.py`): the regex substitution
inserting a space before every capital letter except a leading one. -/
def _format_check_name (check_name : String) : String :=
  match check_name.data with
  | [] => ""
  | c :: rest =>
      ⟨c :: rest.flatMap (fun ch => if ch.isUpper then [' ', ch] else [ch])⟩

/-- Python `sep.join(l)`. -/
def pyJoin (sep : String) : List String → String
  | [] => ""
  | [x] => x
  | x :: rest => x ++ sep ++ pyJoin sep rest

/-- One iteration of the include-mode loop of `CheckManager.filter_checks`:
the accumulator carries `(resolved_names, requested_disabled, not_found)`. -/
def includeStep (all_checks : List Check) (file_to_class_map : List (String × String))
    (disabled_class_names : List String)
    (acc : List String × List String × List String) (name : String) :
    List String × List String × List String :=
  match _resolve_check_name name all_checks file_to_class_map with
  | some resolved =>
      if resolved ∈ disabled_class_names then (acc.1, acc.2.1 ++ [resolved], acc.2.2)
      else (acc.1 ++ [resolved], acc.2.1, acc.2.2)
  | none => (acc.1, acc.2.1, acc.2.2 ++ [name])

/-- One iteration of the exclude-mode loop of `CheckManager.filter_checks`:
the accumulator carries `(excluded_names, not_found)`. -/
def excludeStep (all_checks : List Check) (file_to_class_map : List (String × String))
    (acc : List String × List String) (name : String) : List String × List String :=
  match _resolve_check_name name all_checks file_to_class_map with
  | some resolved => (acc.1 ++ [resolved], acc.2)
  | none => (acc.1, acc.2 ++ [name])

/-- `CheckManager.filter_checks` (`manager.py`).  Python's truthiness tests
on the two optional name lists (`None` and `[]` are both falsy) are modelled
by `List.isEmpty` on plain lists; the disabled-checks configuration is the
explicit `disabled_config` argument; console warnings are not modelled. -/
def filter_checks (all_checks : List Check) (file_to_class_map : List (String × String))
    (disabled_config : List String) (include_names exclude_names : List String) :
    Except String (List Check × String) :=
  if ¬ include_names.isEmpty ∧ ¬ exclude_names.isEmpty then
    .error "Cannot use both --checks and --exclude at the same time"
  else
    let disabled_class_names :=
      _get_disabled_check_names disabled_config all_checks file_to_class_map
    if ¬ include_names.isEmpty then
      let st := include_names.foldl
        (includeStep all_checks file_to_class_map disabled_class_names) ([], [], [])
      let resolved_names := st.1
      let requested_disabled := st.2.1
      let filtered := all_checks.filter (fun c => c.check_name ∈ resolved_names)
      if filtered.isEmpty then
        if ¬ requested_disabled.isEmpty then
          .ok ([], "No valid checks found from: " ++ pyJoin ", " include_names ++
            " (requested checks are disabled)")
        else
          .ok ([], "No valid checks found from: " ++ pyJoin ", " include_names)
      else
        let info := "Selected checks executed: " ++
          pyJoin ", " (resolved_names.map _format_check_name)
        if ¬ requested_disabled.isEmpty then
          .ok (filtered, info ++ " (disabled checks skipped: " ++
            pyJoin ", " (requested_disabled.map _format_check_name) ++ ")")
        else
          .ok (filtered, info)
    else if ¬ exclude_names.isEmpty then
      let st := exclude_names.foldl (excludeStep all_checks file_to_class_map) ([], [])
      let excluded_names := st.1
      let filtered := all_checks.filter
        (fun c => c.check_name ∉ excluded_names ∧ c.check_name ∉ disabled_class_names)
      let excluded_formatted :=
        (if ¬ excluded_names.isEmpty then
          [pyJoin ", " (excluded_names.map _format_check_name)] else []) ++
        (if ¬ disabled_class_names.isEmpty then
          ["disabled: " ++ pyJoin ", " (disabled_class_names.map _format_check_name)]
         else [])
      if ¬ excluded_formatted.isEmpty then
        .ok (filtered, "All checks executed except: " ++ pyJoin ", " excluded_formatted)
      else
        .ok (filtered, "All checks executed")
    else
      let filtered := all_checks.filter (fun c => c.check_name ∉ disabled_class_names)
      if ¬ disabled_class_names.isEmpty then
        .ok (filtered, "All checks executed (disabled checks skipped: " ++
          pyJoin ", " (disabled_class_names.map _format_check_name) ++ ")")
      else
        .ok (filtered, "All checks executed")

/-- The mutable state of a `CheckManager` instance that `run_checks`
touches: the aggregate issue collection and the execution-info string. -/
structure ManagerState where
  issues : List Issue
  execution_info : Option String
deriving DecidableEq

/-- `CheckManager.run_checks` (`manager.py`) after discovery, which is
modelled by passing the discovered `all_checks` and `file_to_class_map`.
The second component of the result is the message of an uncaught exception
(`None` when the run completes); the first component is the manager state at
that point, so a raise before any mutation leaves the state unchanged. -/
def run_checks (all_checks : List Check) (file_to_class_map : List (String × String))
    (disabled_config : List String) (include_names exclude_names : List String)
    (st : ManagerState) : ManagerState × Option String :=
  if all_checks.isEmpty then (st, none)
  else
    match filter_checks all_checks file_to_class_map disabled_config
        include_names exclude_names with
    | .error e => (st, some e)
    | .ok (checks, info) =>
      let st1 : ManagerState := ⟨st.issues, some info⟩
      if checks.isEmpty then (st1, none)
      else
        match run_checks_loop st1.issues checks with
        | (issues, err) => (⟨issues, st1.execution_info⟩, err)

/-- The resolved, non-disabled names collected by the include-mode loop. -/
def includeResolvedOf (all_checks : List Check)
    (file_to_class_map : List (String × String)) (disabled names : List String) :
    List String :=
  names.filterMap (fun n =>
    match _resolve_check_name n all_checks file_to_class_map with
    | some r => if r ∈ disabled then none else some r
    | none => none)

/-- The requested-but-disabled names collected by the include-mode loop. -/
def includeRequestedDisabledOf (all_checks : List Check)
    (file_to_class_map : List (String × String)) (disabled names : List String) :
    List String :=
  names.filterMap (fun n =>
    match _resolve_check_name n all_checks file_to_class_map with
    | some r => if r ∈ disabled then some r else none
    | none => none)

/-- Python `str.upper()` restricted to ASCII, as used on severities. -/
def str_upper (s : String) : String := ⟨s.data.map Char.toUpper⟩

/-- Left-to-right concatenation of rendered pieces, as produced by the
reporter's `html += ...` loops. -/
def strConcat : List String → String
  | [] => ""
  | s :: rest => s ++ strConcat rest

/-- `EmailReporter.MAX_LIST_ITEMS`. -/
def MAX_LIST_ITEMS : Nat := 10

/-- `EmailReporter.MAX_TABLE_ROWS`. -/
def MAX_TABLE_ROWS : Nat := 10

/-- The per-character action of `EmailReporter._escape_html`. -/
def escapeChar (c : Char) : String :=
  if c = '&' then "&amp;"
  else if c = '<' then "&lt;"
  else if c = '>' then "&gt;"
  else if c = '"' then "&quot;"
  else if c = '\'' then "&#x27;"
  else String.singleton c

/-- `EmailReporter._escape_html` (`email_reporter.py`): the source chains
five `str.replace` calls, `&` first and then `<`, `>`, `"`, `'`; no
replacement string contains a character replaced by a later call, so the
chain acts independently on each input character, as modelled here. -/
def _escape_html (text : String) : String :=
  strConcat (text.data.map escapeChar)

/-- `Issue.has_extra_data` (`issue.py`): `bool(self.extra_data)`, i.e. some
rendered key holds data. -/
def Issue.has_extra_data (i : Issue) : Bool :=
  !i.extra_data.entity_ids.isEmpty || !i.extra_data.invalid_values.isEmpty ||
    !i.extra_data.records.isEmpty || !i.extra_data.summary.isEmpty

/-- Python `record.get(header, '')` on a dict modelled as an association
list in key-insertion order. -/
def pyGet (record : List (String × String)) (k : String) : String :=
  match record.find? (fun p => p.1 == k) with
  | some p => p.2
  | none => ""

/-- `EmailReporter._format_list` (`email_reporter.py`). -/
def _format_list (items : List String) (title : String) (max_items : Nat) : String :=
  "<div class=\"extra-data-section\">" ++
  "<div class=\"extra-data-title\">" ++ title ++ ":</div>" ++
  "<ul class=\"extra-data-list\">" ++
  strConcat ((items.take max_items).map (fun item =>
    "<li>" ++ _escape_html item ++ "</li>")) ++
  "</ul>" ++
  (if items.length > max_items then
    "<div class=\"truncation-notice\">Showing first " ++ toString max_items ++
      " of " ++ toString items.length ++ " items</div>"
   else "") ++
  "</div>"

/-- `EmailReporter._format_table` (`email_reporter.py`): column headers come
from the first record's keys; each row renders `record.get(header, '')`. -/
def _format_table (records : List (List (String × String))) (max_rows : Nat) : String :=
  match records with
  | [] => ""
  | r0 :: _ =>
    "<div class=\"extra-data-section\">" ++
    "<div class=\"extra-data-title\">Detailed Records:</div>" ++
    "<table class=\"extra-data-table\">" ++
    "<thead><tr>" ++
    strConcat ((r0.map Prod.fst).map (fun h => "<th>" ++ _escape_html h ++ "</th>")) ++
    "</tr></thead>" ++
    "<tbody>" ++
    strConcat ((records.take max_rows).map (fun record =>
      "<tr>" ++
      strConcat ((r0.map Prod.fst).map (fun h =>
        "<td>" ++ _escape_html (pyGet record h) ++ "</td>")) ++
      "</tr>")) ++
    "</tbody></table>" ++
    (if records.length > max_rows then
      "<div class=\"truncation-notice\">Showing first " ++ toString max_rows ++
        " of " ++ toString records.length ++ " records</div>"
     else "") ++
    "</div>"

/-- `EmailReporter._format_summary` (`email_reporter.py`). -/
def _format_summary (summary : List (String × String)) : String :=
  "<div class=\"extra-data-section\">" ++
  "<div class=\"extra-data-title\">Summary:</div>" ++
  "<ul class=\"extra-data-list\">" ++
  strConcat (summary.map (fun kv =>
    "<li><strong>" ++ _escape_html kv.1 ++ ":</strong> " ++ _escape_html kv.2 ++ "</li>")) ++
  "</ul></div>"

/-- `EmailReporter._format_extra_data` (`email_reporter.py`): each of the
four keys is rendered when present and non-empty. -/
def _format_extra_data (extra_data : ExtraData) : String :=
  "<div class=\"extra-data\">" ++
  (if ¬ extra_data.entity_ids.isEmpty then
    _format_list extra_data.entity_ids "Entity IDs" MAX_LIST_ITEMS else "") ++
  (if ¬ extra_data.invalid_values.isEmpty then
    _format_list extra_data.invalid_values "Invalid Values" MAX_LIST_ITEMS else "") ++
  (if ¬ extra_data.records.isEmpty then
    _format_table extra_data.records MAX_TABLE_ROWS else "") ++
  (if ¬ extra_data.summary.isEmpty then
    _format_summary extra_data.summary else "") ++
  "</div>"

/-- The fixed HTML head of `EmailReporter.format_issues` up to the total
count, with the current date passed in as `now` (the source reads
`datetime.now()`). -/
def htmlHeader (now : String) (total : Nat) : String :=
  "\n        <html>\n        <head>\n            <style>\n" ++
  "                body \x7b font-family: Arial, sans-serif; \x7d\n" ++
  "                h1 \x7b color: #000000; \x7d\n" ++
  "                h2 \x7b color: #1976d2; margin-top: 20px; \x7d\n" ++
  "                .issue \x7b \n" ++
  "                    background-color: #fff3cd; \n" ++
  "                    border-left: 4px solid #ffc107; \n" ++
  "                    padding: 10px; \n" ++
  "                    margin: 10px 0; \n" ++
  "                \x7d\n" ++
  "                .severity-high \x7b border-left-color: #d32f2f; background-color: #ffebee; \x7d\n" ++
  "                .severity-medium \x7b border-left-color: #ff9800; background-color: #fff3e0; \x7d\n" ++
  "                .severity-low \x7b border-left-color: #4caf50; background-color: #e8f5e9; \x7d\n" ++
  "                .details \x7b margin-top: 5px; color: #333; font-size: 0.9em; \x7d\n" ++
  "                .extra-data \x7b margin-top: 10px; padding: 10px; background-color: #f5f5f5; border-radius: 4px; \x7d\n" ++
  "                .extra-data-section \x7b margin-top: 10px; \x7d\n" ++
  "                .extra-data-title \x7b font-weight: bold; color: #1976d2; margin-bottom: 5px; \x7d\n" ++
  "                .extra-data-list \x7b margin: 5px 0; padding-left: 20px; \x7d\n" ++
  "                .extra-data-list li \x7b margin: 3px 0; \x7d\n" ++
  "                .extra-data-table \x7b width: 100%; border-collapse: collapse; margin: 10px 0; font-size: 0.9em; \x7d\n" ++
  "                .extra-data-table th \x7b background-color: #1976d2; color: white; padding: 8px; text-align: left; \x7d\n" ++
  "                .extra-data-table td \x7b padding: 6px 8px; border-bottom: 1px solid #ddd; \x7d\n" ++
  "                .extra-data-table tr:nth-child(even) \x7b background-color: #f9f9f9; \x7d\n" ++
  "                .truncation-notice \x7b margin-top: 5px; font-style: italic; color: #666; font-size: 0.85em; \x7d\n" ++
  "                .execution-info \x7b color: #999; font-size: 0.85em; font-style: italic; margin-top: 5px; \x7d\n" ++
  "            </style>\n        </head>\n        <body>\n" ++
  "            <h1>Data Quality Alert Report</h1>\n" ++
  "            <p><strong>Date:</strong> " ++ now ++ "</p>\n" ++
  "            <p><strong>Total Issues Found:</strong> " ++ toString total ++ "</p>\n        " ++
  ""

/-- The fixed HTML tail of `EmailReporter.format_issues`. -/
def htmlFooter : String :=
  "\n        <hr style=\"margin-top: 30px; border: none; border-top: 1px solid #ddd;\">\n" ++
  "        <p style=\"color: #666; font-size: 0.9em; margin-top: 20px;\">Yazan Majdalawi</p>\n" ++
  "        </body>\n        </html>\n        "

/-- The HTML block `format_issues` appends for one issue: severity badge and
message, then the details `div` when `details` is non-empty, then the
`extra_data` rendering when present. -/
def issueBlock (issue : Issue) : String :=
  "\n                <div class=\"issue severity-" ++ issue.severity ++ "\">\n" ++
  "                    <strong>[" ++ str_upper issue.severity ++ "]</strong> " ++
  issue.message ++ "\n                " ++
  (if issue.details ≠ "" then
    "<div class=\"details\">" ++ issue.details ++ "</div>" else "") ++
  (if issue.has_extra_data then _format_extra_data issue.extra_data else "") ++
  "</div>\n"

/-- `EmailReporter.format_issues` (`email_reporter.py`): empty collection
renders to the empty string; otherwise header, optional execution-info
paragraph, issues grouped by check under `h2` headings (formatted check
names), and footer. -/
def format_issues (issues : List Issue) (execution_info : Option String)
    (now : String) : String :=
  if issues.isEmpty then ""
  else
    (group_by_check issues).foldl
      (fun acc e =>
        e.2.foldl (fun acc2 issue => acc2 ++ issueBlock issue)
          (acc ++ "<h2>" ++ _format_check_name e.1 ++ "</h2>\n"))
      (htmlHeader now issues.length ++
        (match execution_info with
         | some e => "<p class=\"execution-info\">Execution mode: " ++ e ++ "</p>\n"
         | none => "")) ++
    htmlFooter

/-- Outcome of a `send_email` call: either the empty-collection early return
(no report constructed, nothing posted) or a posted body. -/
inductive SendOutcome
  | noSend
  | sent (body : String)
deriving DecidableEq

/-- `EmailReporter.send_email` (`email_reporter.py`): returns `False` at
once on an empty collection; otherwise formats the body and posts it (the
transport itself is outside the embedding). -/
def send_email (issues : List Issue) (execution_info : Option String)
    (now : String) : SendOutcome :=
  if issues.isEmpty then .noSend
  else .sent (format_issues issues execution_info now)

/-- `CheckManager.send_report` (`manager.py`): if the aggregate collection
is empty, print and return without constructing a reporter or calling
`send_email`; otherwise delegate to `send_email`. -/
def send_report (st : ManagerState) (now : String) : SendOutcome :=
  if st.issues.isEmpty then .noSend
  else send_email st.issues st.execution_info now

/-- An issue carrying an `extra_data` list item with a raw `<`. -/
def edIssue : Issue := ⟨"Chk", "high", "msg", "", ⟨["x<y"], [], [], []⟩⟩

/-- Executable substring check used to refute claimed escaping. -/
def listHasSeg (needle : List Char) : List Char → Bool
  | [] => needle.isEmpty
  | c :: t => needle.isPrefixOf (c :: t) || listHasSeg needle t

/-- A collection whose only issue carries raw markup in its message. -/
def xssIssue : Issue := ⟨"EvilCheck", "high", "<zqz>", "", emptyExtra⟩

/-- Report-side observer for C8: scan an HTML fragment and collect the text
content of each `<li>` element (the content of a rendered item never
contains `<`, since it passed through `_escape_html`). -/
def extractLis : List Char → List (List Char)
  | [] => []
  | c :: rest =>
    if c = '<' ∧ rest.take 3 = ['l', 'i', '>'] then
      ((rest.drop 3).takeWhile (fun x => x ≠ '<')) ::
        extractLis ((rest.drop 3).dropWhile (fun x => x ≠ '<'))
    else extractLis rest
termination_by l => l.length
decreasing_by
  · simp only [List.length_cons]
    have h1 : ((rest.drop 3).dropWhile (fun x => decide (x ≠ '<'))).length ≤
        (rest.drop 3).length := (List.dropWhile_sublist _).length_le
    have h2 : (rest.drop 3).length ≤ rest.length := by
      rw [List.length_drop]
      omega
    omega
  · simp

/-- Report-side observer for C8: the fragment that follows the first
`</ul>` close tag. -/
def afterUl : List Char → List Char
  | [] => []
  | c :: rest =>
    if c = '<' ∧ rest.take 4 = ['/', 'u', 'l', '>'] then rest.drop 4
    else afterUl rest
termination_by l => l.length
decreasing_by
  simp

/-- A fragment is li-safe when every `<` in it is followed, inside the
fragment, by three characters other than `li>`; scanning such a fragment
finds no item and continues past it. -/
def liSafe : List Char → Bool
  | [] => true
  | c :: rest =>
    (if c = '<' then
      decide (rest.take 3 ≠ ['l', 'i', '>']) && decide (3 ≤ rest.length)
     else true) && liSafe rest

/-- A fragment is ul-safe when every `<` in it is followed, inside the
fragment, by four characters other than `/ul>`. -/
def ulSafe : List Char → Bool
  | [] => true
  | c :: rest =>
    (if c = '<' then
      decide (rest.take 4 ≠ ['/', 'u', 'l', '>']) && decide (4 ≤ rest.length)
     else true) && ulSafe rest

/-- C2: constructing an `Issue` fails exactly when `check_name` is empty,
`message` is empty, or `severity` is outside `{low, medium, high}`; otherwise
construction succeeds and the stored `check_name`, `severity` and `message`
equal the arguments. -/
theorem issue_construction_valid_iff (cn sev msg : String) (det : Option String)
    (ed : Option ExtraData) :
    ((∃ e, Issue.mk? cn sev msg det ed = .error e) ↔
      (cn = "" ∨ msg = "" ∨ sev ∉ VALID_SEVERITIES))
    ∧ (cn ≠ "" → msg ≠ "" → sev ∈ VALID_SEVERITIES →
        ∃ i, Issue.mk? cn sev msg det ed = .ok i ∧
          i.check_name = cn ∧ i.severity = sev ∧ i.message = msg) := by
  constructor
  · unfold Issue.mk?
    by_cases hcn : cn = "" <;> simp [hcn]
    by_cases hsev0 : sev = ""
    · subst hsev0
      simp [VALID_SEVERITIES]
    · simp only [hsev0, if_false]
      by_cases hmem : sev ∈ VALID_SEVERITIES <;> simp [hmem]
      by_cases hmsg : msg = "" <;> simp [hmsg]
  · intro hcn hmsg hmem
    have hsev0 : sev ≠ "" := by
      intro h
      subst h
      simp [VALID_SEVERITIES] at hmem
    refine ⟨⟨cn, sev, msg, det.getD "", ed.getD emptyExtra⟩, ?_, rfl, rfl, rfl⟩
    unfold Issue.mk?
    simp [hcn, hmsg, hmem, hsev0]

/-- Concrete instantiation of `issue_construction_valid_iff`. -/
theorem issue_construction_valid_iff_witness :
    ∃ i, Issue.mk? "CityValidationMag" "high" "Invalid city" none none = .ok i ∧
      i.check_name = "CityValidationMag" ∧ i.severity = "high" ∧
      i.message = "Invalid city" :=
  (issue_construction_valid_iff "CityValidationMag" "high" "Invalid city" none none).2
    (by decide) (by decide) (by decide)

theorem lookupGroup_addToGroup (g : List (String × List Issue)) (i : Issue) (k : String) :
    lookupGroup k (addToGroup g i) =
      if i.check_name = k then some ((lookupGroup k g).getD [] ++ [i])
      else lookupGroup k g := by
  induction g with
  | nil =>
    by_cases h : i.check_name = k <;> simp [addToGroup, lookupGroup, h]
  | cons hd tl ih =>
    obtain ⟨k', g'⟩ := hd
    by_cases hk' : k' = i.check_name
    · by_cases h : i.check_name = k
      · simp [addToGroup, lookupGroup, hk', h]
      · simp [addToGroup, lookupGroup, hk', h]
    · by_cases h : k' = k
      · have hnk : ¬ i.check_name = k := by
          rw [← h]
          exact fun hh => hk' hh.symm
        have hnk2 : ¬ k = i.check_name := fun hh => hnk hh.symm
        simp [addToGroup, lookupGroup, hk', h, hnk, hnk2]
      · simp [addToGroup, lookupGroup, hk', h, ih]

theorem keys_addToGroup (g : List (String × List Issue)) (i : Issue) :
    (addToGroup g i).map Prod.fst =
      if i.check_name ∈ g.map Prod.fst then g.map Prod.fst
      else g.map Prod.fst ++ [i.check_name] := by
  induction g with
  | nil => simp [addToGroup]
  | cons hd tl ih =>
    obtain ⟨k', g'⟩ := hd
    by_cases hk' : k' = i.check_name
    · subst hk'
      simp [addToGroup]
    · have : ¬ i.check_name = k' := fun hh => hk' hh.symm
      by_cases hmem : i.check_name ∈ tl.map Prod.fst <;>
        simp [addToGroup, hk', this, hmem, ih]

theorem lookupGroup_getD_foldl (c : List Issue) :
    ∀ (acc : List (String × List Issue)) (k : String),
      (lookupGroup k (c.foldl addToGroup acc)).getD [] =
        (lookupGroup k acc).getD [] ++ c.filter (fun i => i.check_name = k) := by
  induction c with
  | nil => intro acc k; simp
  | cons i rest ih =>
    intro acc k
    rw [List.foldl_cons, ih (addToGroup acc i) k, lookupGroup_addToGroup]
    by_cases h : i.check_name = k
    · simp [h, List.filter_cons]
    · simp [h, List.filter_cons]

theorem lookupGroup_isSome_foldl (c : List Issue) :
    ∀ (acc : List (String × List Issue)) (k : String),
      (lookupGroup k (c.foldl addToGroup acc)).isSome =
        ((lookupGroup k acc).isSome || c.any (fun i => i.check_name = k)) := by
  induction c with
  | nil => intro acc k; simp
  | cons i rest ih =>
    intro acc k
    rw [List.foldl_cons, ih (addToGroup acc i) k, lookupGroup_addToGroup]
    by_cases h : i.check_name = k
    · simp [h]
    · simp [h]

theorem keys_foldl (c : List Issue) :
    ∀ (acc : List (String × List Issue)),
      (c.foldl addToGroup acc).map Prod.fst =
        acc.map Prod.fst ++
          firstSeen ((c.map Issue.check_name).filter
            (fun n => n ∉ acc.map Prod.fst)) := by
  induction c with
  | nil =>
    intro acc
    simp [firstSeen]
  | cons i rest ih =>
    intro acc
    rw [List.foldl_cons, ih (addToGroup acc i), keys_addToGroup]
    by_cases hmem : i.check_name ∈ acc.map Prod.fst
    · simp only [hmem, if_true, List.map_cons, List.filter_cons]
      simp [hmem]
    · simp only [hmem, if_false, List.map_cons, List.filter_cons]
      have hfilt : (rest.map Issue.check_name).filter
            (fun n => n ∉ acc.map Prod.fst ++ [i.check_name]) =
          ((rest.map Issue.check_name).filter
            (fun n => n ∉ acc.map Prod.fst)).filter
            (fun x => x ≠ i.check_name) := by
        rw [List.filter_filter]
        apply List.filter_congr
        intro x _
        by_cases h1 : x ∈ acc.map Prod.fst <;> by_cases h2 : x = i.check_name <;>
          simp [h1, h2]
      rw [hfilt]
      simp [hmem, firstSeen, List.append_assoc]

theorem sum_addToGroup (g : List (String × List Issue)) (i : Issue) :
    ((addToGroup g i).map (fun e => e.2.length)).sum =
      (g.map (fun e => e.2.length)).sum + 1 := by
  induction g with
  | nil => simp [addToGroup]
  | cons hd tl ih =>
    obtain ⟨k', g'⟩ := hd
    by_cases hk' : k' = i.check_name
    · simp [addToGroup, hk']
      omega
    · simp [addToGroup, hk', ih]
      omega

theorem sum_foldl (c : List Issue) :
    ∀ (acc : List (String × List Issue)),
      ((c.foldl addToGroup acc).map (fun e => e.2.length)).sum =
        (acc.map (fun e => e.2.length)).sum + c.length := by
  induction c with
  | nil => intro acc; simp
  | cons i rest ih =>
    intro acc
    rw [List.foldl_cons, ih (addToGroup acc i), sum_addToGroup]
    simp
    omega

theorem groupNamesOK_addToGroup {g : List (String × List Issue)} (i : Issue)
    (h : GroupNamesOK g) : GroupNamesOK (addToGroup g i) := by
  induction g with
  | nil =>
    intro e he j hj
    simp [addToGroup] at he
    subst he
    simp at hj
    subst hj
    rfl
  | cons hd tl ih =>
    obtain ⟨k', g'⟩ := hd
    have htl : GroupNamesOK tl := fun e he => h e (List.mem_cons_of_mem _ he)
    by_cases hk' : k' = i.check_name
    · intro e he j hj
      simp [addToGroup, hk'] at he
      rcases he with he | he
      · subst he
        simp at hj
        rcases hj with hj | hj
        · exact h (i.check_name, g') (by simp [← hk']) j (by simpa [hk'] using hj)
        · subst hj
          rfl
      · exact htl e he j hj
    · intro e he j hj
      simp only [addToGroup, hk', if_false, List.mem_cons] at he
      rcases he with he | he
      · subst he
        exact h (k', g') (by simp) j hj
      · exact ih htl e he j hj

theorem groupNamesOK_foldl (c : List Issue) :
    ∀ (acc : List (String × List Issue)), GroupNamesOK acc →
      GroupNamesOK (c.foldl addToGroup acc) := by
  induction c with
  | nil => intro acc h; exact h
  | cons i rest ih =>
    intro acc h
    rw [List.foldl_cons]
    exact ih _ (groupNamesOK_addToGroup i h)

/-- C7: `group_by_check` partitions the collection: total length equals the
sum of group sizes; group keys appear in first-seen order of `check_name`;
each group holds exactly the collection's issues with that `check_name`, in
insertion order; and two issues with different `check_name` (whatever their
`message` and `extra_data`) never share a group. -/
theorem group_by_check_partitions (c : List Issue) :
    (c.length = ((group_by_check c).map (fun e => e.2.length)).sum)
    ∧ ((group_by_check c).map Prod.fst = firstSeen (c.map Issue.check_name))
    ∧ (∀ k g, lookupGroup k (group_by_check c) = some g →
        g = c.filter (fun i => i.check_name = k))
    ∧ (∀ i1 ∈ c, ∀ i2 ∈ c, i1.check_name ≠ i2.check_name →
        ∀ e ∈ group_by_check c, ¬ (i1 ∈ e.2 ∧ i2 ∈ e.2)) := by
  refine ⟨?_, ?_, ?_, ?_⟩
  · rw [group_by_check, sum_foldl]
    simp
  · rw [group_by_check, keys_foldl]
    simp
  · intro k g hg
    have := lookupGroup_getD_foldl c [] k
    rw [← group_by_check] at this
    rw [hg] at this
    simpa [lookupGroup] using this
  · intro i1 _ i2 _ hne e he hmem
    have hnames : GroupNamesOK (group_by_check c) :=
      groupNamesOK_foldl c [] (by intro e he; simp at he)
    have h1 := hnames e he i1 hmem.1
    have h2 := hnames e he i2 hmem.2
    exact hne (h1.trans h2.symm)

/-- Concrete instantiation of `group_by_check_partitions` on the spec's
two-check "Baghdad2" scenario. -/
theorem group_by_check_partitions_witness :
    [sampleIssueA] =
      [sampleIssueA, sampleIssueB].filter (fun i => i.check_name = "A") :=
  (group_by_check_partitions [sampleIssueA, sampleIssueB]).2.2.1 "A"
    [sampleIssueA] (by decide)

theorem run_checks_loop_append (pre l2 : List Check) :
    ∀ (issues : List Issue),
      run_checks_loop issues (pre ++ l2) =
        match run_checks_loop issues pre with
        | (is, none) => run_checks_loop is l2
        | (is, some err) => (is, some err) := by
  induction pre with
  | nil =>
    intro issues
    simp [run_checks_loop]
  | cons c rest ih =>
    intro issues
    rw [List.cons_append]
    cases hrun : c.run with
    | ok ci =>
      simp only [run_checks_loop, hrun]
      exact ih (issues ++ ci)
    | error e =>
      cases hmk : Issue.mk? c.check_name "high" "Error executing check" (some e) none with
      | ok i =>
        simp only [run_checks_loop, hrun, hmk]
        exact ih (issues ++ [i])
      | error ve =>
        simp only [run_checks_loop, hrun, hmk]

theorem run_checks_loop_acc (l : List Check) :
    ∀ (issues : List Issue),
      run_checks_loop issues l =
        (issues ++ (run_checks_loop [] l).1, (run_checks_loop [] l).2) := by
  induction l with
  | nil => intro issues; simp [run_checks_loop]
  | cons c rest ih =>
    intro issues
    cases hrun : c.run with
    | ok ci =>
      simp only [run_checks_loop, hrun]
      rw [ih (issues ++ ci), ih ([] ++ ci)]
      simp
    | error e =>
      cases hmk : Issue.mk? c.check_name "high" "Error executing check" (some e) none with
      | ok i =>
        simp only [run_checks_loop, hrun, hmk]
        rw [ih (issues ++ [i]), ih ([] ++ [i])]
        simp
      | error ve =>
        simp [run_checks_loop, hrun, hmk]

theorem error_issue_mk (cn e : String) (hname : cn ≠ "") :
    Issue.mk? cn "high" "Error executing check" (some e) none =
      .ok ⟨cn, "high", "Error executing check", e, emptyExtra⟩ := by
  unfold Issue.mk?
  simp [hname, VALID_SEVERITIES, Option.getD]

/-- C1: if a check raises during the execution loop, exactly one
high-severity issue named after that check (message `Error executing check`,
details the exception text) is appended to the aggregate, and the remaining
checks run exactly as they would have without the failure. -/
theorem run_checks_error_isolated (pre post : List Check) (c : Check) (e : String)
    (ipre ipost : List Issue)
    (hrun : c.run = .error e) (hname : c.check_name ≠ "")
    (hpre : run_checks_loop [] pre = (ipre, none))
    (hpost : run_checks_loop [] post = (ipost, none)) :
    run_checks_loop [] (pre ++ c :: post) =
      (ipre ++
        (⟨c.check_name, "high", "Error executing check", e, emptyExtra⟩ : Issue) ::
          ipost, none) := by
  rw [run_checks_loop_append pre (c :: post) [], hpre]
  simp only [run_checks_loop, hrun, error_issue_mk c.check_name e hname]
  rw [run_checks_loop_acc post, hpost]
  simp

/-- Concrete instantiation of `run_checks_error_isolated`: a passing check,
then a raising check, then another passing check. -/
theorem run_checks_error_isolated_witness :
    run_checks_loop []
        ([⟨"Ok1", .ok [okIssue]⟩] ++
          (⟨"Boom", .error "db down"⟩ : Check) :: [⟨"Ok2", .ok []⟩]) =
      ([okIssue] ++
        (⟨"Boom", "high", "Error executing check", "db down", emptyExtra⟩ : Issue) ::
          [], none) :=
  run_checks_error_isolated [⟨"Ok1", .ok [okIssue]⟩] [⟨"Ok2", .ok []⟩]
    ⟨"Boom", .error "db down"⟩ "db down" [okIssue] [] rfl (by decide)
    (by decide) (by decide)

theorem find?_first {α : Type} (p : α → Bool) :
    ∀ (pre : List α) (c : α) (post : List α), (∀ x ∈ pre, p x = false) →
      p c = true → (pre ++ c :: post).find? p = some c := by
  intro pre
  induction pre with
  | nil =>
    intro c post _ hc
    simp [List.find?_cons_of_pos _ hc]
  | cons hd tl ih =>
    intro c post hpre hc
    rw [List.cons_append, List.find?_cons_of_neg]
    · exact ih c post (fun x hx => hpre x (List.mem_cons_of_mem _ hx)) hc
    · simp [hpre hd (List.mem_cons_self _ _)]

/-- C9: name resolution is case-insensitive and two-phase: the first check
whose lowered class name equals the lowered query wins; only when no class
name matches is the file-name map consulted, the first matching entry's class
name being returned; when nothing matches the result is `none` (no
exception). -/
theorem resolve_check_name_spec (q : String) (checks : List Check)
    (idMap : List (String × String)) :
    (∀ pre c post, checks = pre ++ c :: post →
        (∀ c' ∈ pre, str_lower c'.check_name ≠ str_lower q) →
        str_lower c.check_name = str_lower q →
        _resolve_check_name q checks idMap = some c.check_name)
    ∧ ((∀ c ∈ checks, str_lower c.check_name ≠ str_lower q) →
        ∀ pre p post, idMap = pre ++ p :: post →
          (∀ p' ∈ pre, str_lower p'.1 ≠ str_lower q) →
          str_lower p.1 = str_lower q →
          _resolve_check_name q checks idMap = some p.2)
    ∧ ((∀ c ∈ checks, str_lower c.check_name ≠ str_lower q) →
        (∀ p ∈ idMap, str_lower p.1 ≠ str_lower q) →
        _resolve_check_name q checks idMap = none) := by
  refine ⟨?_, ?_, ?_⟩
  · intro pre c post hsplit hpre hc
    subst hsplit
    have h1 : List.find? (fun x => str_lower x.check_name == str_lower q)
        (pre ++ c :: post) = some c :=
      find?_first _ pre c post (fun x hx => by simp [hpre x hx]) (by simp [hc])
    simp [_resolve_check_name, h1]
  · intro hnone pre p post hsplit hpre hp
    subst hsplit
    have h1 : List.find? (fun x => str_lower x.check_name == str_lower q)
        checks = none :=
      List.find?_eq_none.2 (fun x hx => by simp [hnone x hx])
    have h2 : List.find? (fun x => str_lower x.1 == str_lower q)
        (pre ++ p :: post) = some p :=
      find?_first _ pre p post (fun x hx => by simp [hpre x hx]) (by simp [hp])
    simp [_resolve_check_name, h1, h2]
  · intro hchecks hmap
    have h1 : List.find? (fun x => str_lower x.check_name == str_lower q)
        checks = none :=
      List.find?_eq_none.2 (fun x hx => by simp [hchecks x hx])
    have h2 : List.find? (fun x => str_lower x.1 == str_lower q)
        idMap = none :=
      List.find?_eq_none.2 (fun x hx => by simp [hmap x hx])
    simp [_resolve_check_name, h1, h2]

/-- Concrete instantiation of `resolve_check_name_spec`: resolving
"cityvalidationmag" against a check logically named "CityValidationMag". -/
theorem resolve_check_name_spec_witness :
    _resolve_check_name "cityvalidationmag"
        [⟨"CityValidationMag", .ok []⟩] [] = some "CityValidationMag" :=
  (resolve_check_name_spec "cityvalidationmag"
      [⟨"CityValidationMag", .ok []⟩] []).1 [] ⟨"CityValidationMag", .ok []⟩ []
    rfl (by intro c' h; simp at h) (by decide)

theorem resolve_mem (q : String) (checks : List Check)
    (idMap : List (String × String)) (r : String)
    (hmap : ∀ p ∈ idMap, p.2 ∈ checks.map Check.check_name)
    (h : _resolve_check_name q checks idMap = some r) :
    r ∈ checks.map Check.check_name := by
  unfold _resolve_check_name at h
  cases h1 : List.find? (fun c => str_lower c.check_name == str_lower q) checks with
  | some c =>
    rw [h1] at h
    simp only [Option.some.injEq] at h
    subst h
    exact List.mem_map_of_mem _ (List.mem_of_find?_eq_some h1)
  | none =>
    rw [h1] at h
    cases h2 : List.find? (fun p => str_lower p.1 == str_lower q) idMap with
    | some p =>
      rw [h2] at h
      simp only [Option.some.injEq] at h
      subst h
      exact hmap p (List.mem_of_find?_eq_some h2)
    | none =>
      rw [h2] at h
      simp at h

theorem disabled_fold_mem (cfg : List String) (checks : List Check)
    (idMap : List (String × String))
    (hmap : ∀ p ∈ idMap, p.2 ∈ checks.map Check.check_name) :
    ∀ (acc : List String), (∀ x ∈ acc, x ∈ checks.map Check.check_name) →
      ∀ x ∈ cfg.foldl (disabledStep checks idMap) acc,
        x ∈ checks.map Check.check_name := by
  induction cfg with
  | nil =>
    intro acc hacc x hx
    exact hacc x hx
  | cons n rest ih =>
    intro acc hacc x hx
    rw [List.foldl_cons] at hx
    refine ih (disabledStep checks idMap acc n) ?_ x hx
    intro y hy
    unfold disabledStep at hy
    cases hres : _resolve_check_name n checks idMap with
    | some r =>
      rw [hres] at hy
      by_cases hr : r ∈ acc
      · simp only [hr, if_true] at hy
        exact hacc y hy
      · simp only [hr, if_false, List.mem_append, List.mem_singleton] at hy
        rcases hy with hy | hy
        · exact hacc y hy
        · subst hy
          exact resolve_mem n checks idMap y hmap hres
    | none =>
      rw [hres] at hy
      exact hacc y hy

/-- C10: the disabled set only ever contains logical names of discovered
checks (given the discovery invariant that `file_to_class_map` maps file
names to discovered class names), and a configured disabled name that
resolves to no discovered check is dropped silently: removing it from the
configuration leaves the computed disabled set unchanged (hence it disables
nothing and can never surface in any info text, which depends only on this
set). -/
theorem disabled_names_subset_discovered (cfg : List String) (checks : List Check)
    (idMap : List (String × String))
    (hmap : ∀ p ∈ idMap, p.2 ∈ checks.map Check.check_name) :
    (∀ n ∈ _get_disabled_check_names cfg checks idMap,
        n ∈ checks.map Check.check_name)
    ∧ (∀ cfg1 n cfg2, cfg = cfg1 ++ n :: cfg2 →
        _resolve_check_name n checks idMap = none →
        _get_disabled_check_names cfg checks idMap =
          _get_disabled_check_names (cfg1 ++ cfg2) checks idMap) := by
  constructor
  · intro n hn
    unfold _get_disabled_check_names at hn
    by_cases hempty : cfg.isEmpty
    · simp [hempty] at hn
    · simp only [hempty, if_false] at hn
      exact disabled_fold_mem cfg checks idMap hmap [] (by intro x hx; simp at hx) n hn
  · intro cfg1 n cfg2 hsplit hres
    subst hsplit
    unfold _get_disabled_check_names
    have hstep : ∀ acc, disabledStep checks idMap acc n = acc := by
      intro acc
      unfold disabledStep
      rw [hres]
    have hne : (cfg1 ++ n :: cfg2).isEmpty = false := by
      cases cfg1 <;> simp
    rw [hne]
    simp only [Bool.false_eq_true, if_false]
    by_cases hempty : (cfg1 ++ cfg2).isEmpty
    · have h1 : cfg1 = [] := by
        cases cfg1 with
        | nil => rfl
        | cons a l => simp at hempty
      have h2 : cfg2 = [] := by
        subst h1
        simpa using hempty
      subst h1
      subst h2
      simp [hempty, hstep]
    · simp only [hempty, if_false]
      rw [List.foldl_append, List.foldl_append, List.foldl_cons, hstep]
      simp [hempty]

/-- Concrete instantiation of `disabled_names_subset_discovered`: the
configured name "NoSuchCheck" resolves to nothing and is dropped, while
"cityvalidationmag" resolves and survives. -/
theorem disabled_names_subset_discovered_witness :
    _get_disabled_check_names ["NoSuchCheck", "cityvalidationmag"]
        [⟨"CityValidationMag", .ok []⟩] [] =
      _get_disabled_check_names ["cityvalidationmag"]
        [⟨"CityValidationMag", .ok []⟩] [] :=
  (disabled_names_subset_discovered ["NoSuchCheck", "cityvalidationmag"]
      [⟨"CityValidationMag", .ok []⟩] [] (by intro p hp; simp at hp)).2
    [] "NoSuchCheck" ["cityvalidationmag"] rfl (by decide)

/-- C3: calling `filter_checks` with both an include and an exclude list
raises the configuration error; through `run_checks` the exception
propagates before any check is selected or executed, leaving the aggregate
issue collection unchanged. -/
theorem filter_checks_both_flags_error (all_checks : List Check)
    (file_to_class_map : List (String × String)) (disabled_config : List String)
    (include_names exclude_names : List String) (st : ManagerState)
    (h1 : include_names ≠ []) (h2 : exclude_names ≠ []) :
    filter_checks all_checks file_to_class_map disabled_config
        include_names exclude_names =
      .error "Cannot use both --checks and --exclude at the same time"
    ∧ (run_checks all_checks file_to_class_map disabled_config
        include_names exclude_names st).1.issues = st.issues
    ∧ (¬ all_checks.isEmpty →
        run_checks all_checks file_to_class_map disabled_config
            include_names exclude_names st =
          (st, some "Cannot use both --checks and --exclude at the same time")) := by
  have hfe : filter_checks all_checks file_to_class_map disabled_config
      include_names exclude_names =
      .error "Cannot use both --checks and --exclude at the same time" := by
    unfold filter_checks
    have hi : include_names.isEmpty = false := by
      cases include_names with
      | nil => exact absurd rfl h1
      | cons a l => rfl
    have he : exclude_names.isEmpty = false := by
      cases exclude_names with
      | nil => exact absurd rfl h2
      | cons a l => rfl
    simp [hi, he]
  refine ⟨hfe, ?_, ?_⟩
  · unfold run_checks
    by_cases hA : all_checks.isEmpty
    · simp [hA]
    · simp [hA, hfe]
  · intro hA
    unfold run_checks
    simp [hA, hfe]

/-- Concrete instantiation of `filter_checks_both_flags_error`. -/
theorem filter_checks_both_flags_error_witness :
    run_checks [⟨"CityValidationMag", .ok []⟩] [] [] ["A"] ["B"] ⟨[], none⟩ =
      (⟨[], none⟩, some "Cannot use both --checks and --exclude at the same time") :=
  (filter_checks_both_flags_error [⟨"CityValidationMag", .ok []⟩] [] [] ["A"] ["B"]
      ⟨[], none⟩ (by decide) (by decide)).2.2 (by decide)

theorem includeFold_fst (all_checks : List Check)
    (file_to_class_map : List (String × String)) (disabled : List String)
    (names : List String) :
    ∀ acc, (List.foldl (includeStep all_checks file_to_class_map disabled) acc names).1 =
      acc.1 ++ includeResolvedOf all_checks file_to_class_map disabled names := by
  induction names with
  | nil => intro acc; simp [includeResolvedOf]
  | cons n rest ih =>
    intro acc
    rw [List.foldl_cons, ih]
    cases hres : _resolve_check_name n all_checks file_to_class_map with
    | some r =>
      by_cases hd : r ∈ disabled
      · simp [includeStep, hres, hd, includeResolvedOf, List.filterMap_cons]
      · simp [includeStep, hres, hd, includeResolvedOf, List.filterMap_cons]
    | none => simp [includeStep, hres, includeResolvedOf, List.filterMap_cons]

theorem includeFold_snd_fst (all_checks : List Check)
    (file_to_class_map : List (String × String)) (disabled : List String)
    (names : List String) :
    ∀ acc, (List.foldl (includeStep all_checks file_to_class_map disabled) acc names).2.1 =
      acc.2.1 ++ includeRequestedDisabledOf all_checks file_to_class_map disabled names := by
  induction names with
  | nil => intro acc; simp [includeRequestedDisabledOf]
  | cons n rest ih =>
    intro acc
    rw [List.foldl_cons, ih]
    cases hres : _resolve_check_name n all_checks file_to_class_map with
    | some r =>
      by_cases hd : r ∈ disabled
      · simp [includeStep, hres, hd, includeRequestedDisabledOf, List.filterMap_cons]
      · simp [includeStep, hres, hd, includeRequestedDisabledOf, List.filterMap_cons]
    | none => simp [includeStep, hres, includeRequestedDisabledOf, List.filterMap_cons]

theorem mem_includeResolvedOf_not_disabled (all_checks : List Check)
    (file_to_class_map : List (String × String)) (disabled names : List String)
    (r : String) (h : r ∈ includeResolvedOf all_checks file_to_class_map disabled names) :
    r ∉ disabled := by
  unfold includeResolvedOf at h
  rw [List.mem_filterMap] at h
  obtain ⟨n, _, hn⟩ := h
  cases hres : _resolve_check_name n all_checks file_to_class_map with
  | some r' =>
    rw [hres] at hn
    by_cases hd : r' ∈ disabled
    · simp [hd] at hn
    · simp only [hd, if_false, Option.some.injEq] at hn
      subst hn
      exact hd
  | none =>
    rw [hres] at hn
    simp at hn

theorem mem_includeRequestedDisabledOf_iff (all_checks : List Check)
    (file_to_class_map : List (String × String)) (disabled names : List String)
    (r : String) :
    r ∈ includeRequestedDisabledOf all_checks file_to_class_map disabled names ↔
      ∃ n ∈ names, _resolve_check_name n all_checks file_to_class_map = some r ∧
        r ∈ disabled := by
  unfold includeRequestedDisabledOf
  rw [List.mem_filterMap]
  constructor
  · rintro ⟨n, hn, hf⟩
    refine ⟨n, hn, ?_⟩
    cases hres : _resolve_check_name n all_checks file_to_class_map with
    | some r' =>
      rw [hres] at hf
      by_cases hd : r' ∈ disabled
      · simp only [hd, if_true, Option.some.injEq] at hf
        subst hf
        exact ⟨rfl, hd⟩
      · simp [hd] at hf
    | none =>
      rw [hres] at hf
      simp at hf
  · rintro ⟨n, hn, hres, hd⟩
    exact ⟨n, hn, by rw [hres]; simp [hd]⟩

theorem seg_extend_left {α : Type} {a m : List α} (l : List α) (h : a <:+: m) :
    a <:+: l ++ m := by
  obtain ⟨s, t, hst⟩ := h
  exact ⟨l ++ s, t, by rw [← hst]; simp⟩

theorem seg_extend_right {α : Type} {a m : List α} (r : List α) (h : a <:+: m) :
    a <:+: m ++ r := by
  obtain ⟨s, t, hst⟩ := h
  exact ⟨s, t ++ r, by rw [← hst]; simp⟩

theorem mem_seg_pyJoin (sep : String) (l : List String) (x : String) (h : x ∈ l) :
    x.data <:+: (pyJoin sep l).data := by
  induction l with
  | nil => simp at h
  | cons a rest ih =>
    cases rest with
    | nil =>
      simp at h
      subst h
      simp [pyJoin]
    | cons b rest' =>
      rcases List.mem_cons.1 h with h | h
      · subst h
        exact ⟨[], (sep ++ pyJoin sep (b :: rest')).data, by
          simp [pyJoin, String.data_append]⟩
      · have := ih h
        have h2 : x.data <:+: ((a ++ sep).data ++ (pyJoin sep (b :: rest')).data) :=
          seg_extend_left _ this
        simpa [pyJoin, String.data_append, List.append_assoc] using h2

theorem filter_checks_sel_not_disabled (all_checks : List Check)
    (file_to_class_map : List (String × String)) (disabled_config : List String)
    (include_names exclude_names : List String) (sel : List Check) (info : String)
    (hok : filter_checks all_checks file_to_class_map disabled_config
        include_names exclude_names = .ok (sel, info)) :
    ∀ c ∈ sel, c.check_name ∉
      _get_disabled_check_names disabled_config all_checks file_to_class_map := by
  intro c hc
  by_cases hinc : include_names.isEmpty
  · by_cases hexc : exclude_names.isEmpty
    · simp [filter_checks, hinc, hexc] at hok
      split at hok <;>
      · simp only [Except.ok.injEq, Prod.mk.injEq] at hok
        obtain ⟨hsel, _⟩ := hok
        subst hsel
        have := (List.mem_filter.1 hc).2
        simpa using this
    · simp [filter_checks, hinc, hexc] at hok
      split at hok <;>
      · simp only [Except.ok.injEq, Prod.mk.injEq] at hok
        obtain ⟨hsel, _⟩ := hok
        subst hsel
        have := (List.mem_filter.1 hc).2
        simp only [Bool.and_eq_true, Bool.not_eq_true', decide_eq_false_iff_not] at this
        exact this.2
  · by_cases hexc : exclude_names.isEmpty
    · simp [filter_checks, hinc, hexc] at hok
      rw [includeFold_fst] at hok
      simp only [List.nil_append] at hok
      split at hok
      · split at hok <;>
        · simp only [Except.ok.injEq, Prod.mk.injEq] at hok
          obtain ⟨hsel, _⟩ := hok
          subst hsel
          simp at hc
      · split at hok <;>
        · simp only [Except.ok.injEq, Prod.mk.injEq] at hok
          obtain ⟨hsel, _⟩ := hok
          subst hsel
          have hmem := (List.mem_filter.1 hc).2
          simp only [decide_eq_true_eq] at hmem
          exact mem_includeResolvedOf_not_disabled _ _ _ _ _ hmem
    · simp [filter_checks, hinc, hexc] at hok

theorem isEmpty_false_of_ne_nil {α : Type} {l : List α} (h : l ≠ []) :
    l.isEmpty = false := by
  cases l with
  | nil => exact absurd rfl h
  | cons a t => rfl

theorem filter_checks_requested_disabled_reported (all_checks : List Check)
    (file_to_class_map : List (String × String)) (disabled_config : List String)
    (include_names : List String) (sel : List Check) (info : String)
    (hok : filter_checks all_checks file_to_class_map disabled_config
        include_names [] = .ok (sel, info))
    (n : String) (hn : n ∈ include_names) (r : String)
    (hres : _resolve_check_name n all_checks file_to_class_map = some r)
    (hrD : r ∈ _get_disabled_check_names disabled_config all_checks file_to_class_map) :
    (sel ≠ [] → (" (disabled checks skipped: ").data <:+: info.data ∧
      (_format_check_name r).data <:+: info.data)
    ∧ (sel = [] → info = "No valid checks found from: " ++ pyJoin ", " include_names ++
        " (requested checks are disabled)") := by
  have hincne : include_names ≠ [] := by
    intro h
    subst h
    simp at hn
  have hinc : include_names.isEmpty = false := isEmpty_false_of_ne_nil hincne
  have hreq : r ∈ includeRequestedDisabledOf all_checks file_to_class_map
      (_get_disabled_check_names disabled_config all_checks file_to_class_map)
      include_names :=
    (mem_includeRequestedDisabledOf_iff _ _ _ _ _).2 ⟨n, hn, hres, hrD⟩
  have hreqne : (includeRequestedDisabledOf all_checks file_to_class_map
      (_get_disabled_check_names disabled_config all_checks file_to_class_map)
      include_names).isEmpty = false :=
    isEmpty_false_of_ne_nil (by
      intro h
      rw [h] at hreq
      simp at hreq)
  have hreqne2 : includeRequestedDisabledOf all_checks file_to_class_map
      (_get_disabled_check_names disabled_config all_checks file_to_class_map)
      include_names ≠ [] := by
    intro h
    rw [h] at hreq
    simp at hreq
  simp [filter_checks, hinc] at hok
  rw [includeFold_fst, includeFold_snd_fst] at hok
  simp only [List.nil_append] at hok
  simp only [hreqne2, if_false] at hok
  split at hok
  · simp only [Except.ok.injEq, Prod.mk.injEq] at hok
    obtain ⟨hsel, hinfo⟩ := hok
    constructor
    · intro hne
      exact absurd hsel.symm hne
    · intro _
      exact hinfo.symm
  · next hcond =>
    simp only [Except.ok.injEq, Prod.mk.injEq] at hok
    obtain ⟨hsel, hinfo⟩ := hok
    constructor
    · intro _
      constructor
      · refine ⟨("Selected checks executed: " ++
          pyJoin ", " ((includeResolvedOf all_checks file_to_class_map
            (_get_disabled_check_names disabled_config all_checks file_to_class_map)
            include_names).map _format_check_name)).data,
          (pyJoin ", " ((includeRequestedDisabledOf all_checks file_to_class_map
            (_get_disabled_check_names disabled_config all_checks file_to_class_map)
            include_names).map _format_check_name)).data ++ (")").data, ?_⟩
        rw [← hinfo]
        simp [String.data_append]
      · have h1 := mem_seg_pyJoin ", "
          ((includeRequestedDisabledOf all_checks file_to_class_map
            (_get_disabled_check_names disabled_config all_checks file_to_class_map)
            include_names).map _format_check_name) (_format_check_name r)
          (List.mem_map_of_mem _ hreq)
        have h2 := seg_extend_right ((")").data) h1
        have h3 := seg_extend_left (("Selected checks executed: " ++
          pyJoin ", " ((includeResolvedOf all_checks file_to_class_map
            (_get_disabled_check_names disabled_config all_checks file_to_class_map)
            include_names).map _format_check_name) ++
          " (disabled checks skipped: ").data) h2
        rw [← hinfo]
        simpa [String.data_append] using h3
    · intro hsel0
      rw [hsel0, List.filter_eq_nil_iff] at hsel
      exact absurd (by simpa using hsel) hcond

theorem filter_checks_include_empty_none_found (all_checks : List Check)
    (file_to_class_map : List (String × String)) (disabled_config : List String)
    (include_names : List String) (info : String)
    (hincne : include_names ≠ [])
    (hok : filter_checks all_checks file_to_class_map disabled_config
        include_names [] = .ok ([], info))
    (hnone : ∀ n ∈ include_names, ∀ r,
        _resolve_check_name n all_checks file_to_class_map = some r →
        r ∉ _get_disabled_check_names disabled_config all_checks file_to_class_map) :
    info = "No valid checks found from: " ++ pyJoin ", " include_names := by
  have hinc : include_names.isEmpty = false := isEmpty_false_of_ne_nil hincne
  have hreqnil : includeRequestedDisabledOf all_checks file_to_class_map
      (_get_disabled_check_names disabled_config all_checks file_to_class_map)
      include_names = [] := by
    rw [List.eq_nil_iff_forall_not_mem]
    intro x hx
    obtain ⟨m, hm, hres, hd⟩ := (mem_includeRequestedDisabledOf_iff _ _ _ _ _).1 hx
    exact hnone m hm x hres hd
  simp [filter_checks, hinc] at hok
  rw [includeFold_fst, includeFold_snd_fst] at hok
  simp only [List.nil_append] at hok
  rw [hreqnil] at hok
  simp only [eq_self_iff_true, if_true] at hok
  split at hok
  · simp only [Except.ok.injEq, Prod.mk.injEq] at hok
    exact hok.2.symm
  · next hcond =>
    simp only [Except.ok.injEq, Prod.mk.injEq] at hok
    rw [List.filter_eq_nil_iff] at hok
    exact absurd (by simpa using hok.1) hcond

/-- C4: in all three filtering modes no selected check is in the disabled
set; in include mode a requested name resolving to a disabled check shows up
in the info text's disabled notice (as its formatted name when a selection
remains, and via the requested-names list with the "(requested checks are
disabled)" marker when the selection is empty); an empty include-mode
selection gets the "none found" info exactly when no requested name resolved
to a disabled check, and the two empty-selection info texts differ. -/
theorem filter_checks_disabled_policy (all_checks : List Check)
    (file_to_class_map : List (String × String)) (disabled_config : List String)
    (include_names exclude_names : List String) :
    (∀ sel info, filter_checks all_checks file_to_class_map disabled_config
          include_names exclude_names = .ok (sel, info) →
        ∀ c ∈ sel, c.check_name ∉
          _get_disabled_check_names disabled_config all_checks file_to_class_map)
    ∧ (∀ sel info, filter_checks all_checks file_to_class_map disabled_config
          include_names [] = .ok (sel, info) →
        ∀ n ∈ include_names, ∀ r,
          _resolve_check_name n all_checks file_to_class_map = some r →
          r ∈ _get_disabled_check_names disabled_config all_checks file_to_class_map →
          ((sel ≠ [] → (" (disabled checks skipped: ").data <:+: info.data ∧
              (_format_check_name r).data <:+: info.data)
            ∧ (sel = [] → info = "No valid checks found from: " ++
                pyJoin ", " include_names ++ " (requested checks are disabled)")))
    ∧ (include_names ≠ [] →
        ∀ info, filter_checks all_checks file_to_class_map disabled_config
            include_names [] = .ok ([], info) →
        (∀ n ∈ include_names, ∀ r,
            _resolve_check_name n all_checks file_to_class_map = some r →
            r ∉ _get_disabled_check_names disabled_config all_checks file_to_class_map) →
        info = "No valid checks found from: " ++ pyJoin ", " include_names)
    ∧ ("No valid checks found from: " ++ pyJoin ", " include_names ≠
        "No valid checks found from: " ++ pyJoin ", " include_names ++
          " (requested checks are disabled)") := by
  refine ⟨?_, ?_, ?_, ?_⟩
  · intro sel info hok
    exact filter_checks_sel_not_disabled all_checks file_to_class_map disabled_config
      include_names exclude_names sel info hok
  · intro sel info hok n hn r hres hrD
    exact filter_checks_requested_disabled_reported all_checks file_to_class_map
      disabled_config include_names sel info hok n hn r hres hrD
  · intro hincne info hok hnone
    exact filter_checks_include_empty_none_found all_checks file_to_class_map
      disabled_config include_names info hincne hok hnone
  · intro h
    have h2 := congrArg String.length h
    simp only [String.length_append] at h2
    have h3 : (" (requested checks are disabled)" : String).length = 32 := rfl
    omega

/-- Concrete instantiation of `filter_checks_disabled_policy`: two discovered
checks "Aa" and "Bb", configuration disables "Bb", include mode requests
both; the requested-but-disabled "Bb" surfaces in the disabled notice of the
info text. -/
theorem filter_checks_disabled_policy_witness :
    (" (disabled checks skipped: ").data <:+:
      ("Selected checks executed: Aa (disabled checks skipped: Bb)").data ∧
    (_format_check_name "Bb").data <:+:
      ("Selected checks executed: Aa (disabled checks skipped: Bb)").data :=
  ((filter_checks_disabled_policy [⟨"Aa", .ok []⟩, ⟨"Bb", .ok []⟩] [] ["Bb"]
      ["Aa", "Bb"] []).2.1 [⟨"Aa", .ok []⟩]
    "Selected checks executed: Aa (disabled checks skipped: Bb)" rfl
    "Bb" (by decide) "Bb" (by decide) (by decide)).1 (List.cons_ne_nil _ _)

/-- C5: `send_report` performs a delivery attempt exactly when the aggregate
collection is non-empty; an empty aggregate short-circuits before any report
is constructed or the reporter's send operation invoked. -/
theorem send_report_empty_iff_no_delivery (st : ManagerState) (now : String) :
    (send_report st now = .noSend ↔ st.issues = [])
    ∧ (∀ body, send_report st now = .sent body →
        st.issues ≠ [] ∧ body = format_issues st.issues st.execution_info now) := by
  constructor
  · constructor
    · intro h
      by_cases he : st.issues.isEmpty
      · simpa using he
      · simp [send_report, send_email, he] at h
    · intro h
      simp [send_report, h]
  · intro body h
    by_cases he : st.issues.isEmpty
    · simp [send_report, he] at h
    · simp [send_report, send_email, he] at h
      exact ⟨by simpa using he, h.symm⟩

theorem str_append_assoc (a b c : String) : a ++ b ++ c = a ++ (b ++ c) := by
  apply String.ext
  simp [String.data_append]

theorem mem_seg_strConcat {α : Type} (f : α → String) (l : List α) (x : α)
    (h : x ∈ l) : (f x).data <:+: (strConcat (l.map f)).data := by
  induction l with
  | nil => simp at h
  | cons a rest ih =>
    rcases List.mem_cons.1 h with h | h
    · subst h
      exact ⟨[], (strConcat (rest.map f)).data, by simp [strConcat, String.data_append]⟩
    · have h2 := seg_extend_left (f a).data (ih h)
      simpa [strConcat, String.data_append] using h2

theorem foldl_append_strConcat {α : Type} (f : α → String) (l : List α) :
    ∀ acc : String, l.foldl (fun a x => a ++ f x) acc = acc ++ strConcat (l.map f) := by
  induction l with
  | nil =>
    intro acc
    apply String.ext
    simp [strConcat, String.data_append]
  | cons a rest ih =>
    intro acc
    rw [List.foldl_cons, ih (acc ++ f a)]
    apply String.ext
    simp [strConcat, String.data_append]

theorem group_foldl_eq (groups : List (String × List Issue)) :
    ∀ start : String,
      groups.foldl
        (fun acc e =>
          e.2.foldl (fun a i => a ++ issueBlock i)
            (acc ++ "<h2>" ++ _format_check_name e.1 ++ "</h2>\n")) start =
        start ++ strConcat (groups.map (fun e =>
          "<h2>" ++ _format_check_name e.1 ++ "</h2>\n" ++
            strConcat (e.2.map issueBlock))) := by
  induction groups with
  | nil =>
    intro start
    apply String.ext
    simp [strConcat, String.data_append]
  | cons e rest ih =>
    intro start
    rw [List.foldl_cons, foldl_append_strConcat, ih]
    apply String.ext
    simp [strConcat, String.data_append]

theorem format_issues_eq (issues : List Issue) (hne : issues ≠ [])
    (info : Option String) (now : String) :
    format_issues issues info now =
      htmlHeader now issues.length ++
      (match info with
       | some e => "<p class=\"execution-info\">Execution mode: " ++ e ++ "</p>\n"
       | none => "") ++
      strConcat ((group_by_check issues).map (fun e =>
        "<h2>" ++ _format_check_name e.1 ++ "</h2>\n" ++
          strConcat (e.2.map issueBlock))) ++
      htmlFooter := by
  unfold format_issues
  rw [isEmpty_false_of_ne_nil hne]
  simp only [Bool.false_eq_true, if_false]
  rw [group_foldl_eq]

theorem lookupGroup_mem (k : String) (l : List (String × List Issue))
    (g : List Issue) (h : lookupGroup k l = some g) : (k, g) ∈ l := by
  induction l with
  | nil => simp [lookupGroup] at h
  | cons e rest ih =>
    obtain ⟨k', g'⟩ := e
    by_cases hk : k' = k
    · subst hk
      simp only [lookupGroup, eq_self_iff_true, if_true, Option.some.injEq] at h
      subst h
      exact List.mem_cons_self _ _
    · simp only [lookupGroup, hk, if_false] at h
      exact List.mem_cons_of_mem _ (ih h)

theorem exists_group_entry (c : List Issue) (i : Issue) (h : i ∈ c) :
    ∃ e ∈ group_by_check c, e.1 = i.check_name ∧ i ∈ e.2 := by
  have hsome : (lookupGroup i.check_name (group_by_check c)).isSome = true := by
    rw [group_by_check, lookupGroup_isSome_foldl]
    simp only [lookupGroup, Option.isSome_none, Bool.false_or]
    rw [List.any_eq_true]
    exact ⟨i, h, by simp⟩
  obtain ⟨g, hg⟩ := Option.isSome_iff_exists.1 hsome
  have hfil := lookupGroup_getD_foldl c [] i.check_name
  rw [← group_by_check, hg] at hfil
  simp only [lookupGroup, Option.getD_some, Option.getD_none, List.nil_append] at hfil
  refine ⟨(i.check_name, g), lookupGroup_mem _ _ _ hg, rfl, ?_⟩
  show i ∈ g
  rw [hfil]
  exact List.mem_filter.2 ⟨h, by simp⟩

theorem issueBlock_infix_format (issues : List Issue) (info : Option String)
    (now : String) (i : Issue) (h : i ∈ issues) :
    ((("<h2>" ++ _format_check_name i.check_name ++ "</h2>\n").data <:+:
        (format_issues issues info now).data)
      ∧ (issueBlock i).data <:+: (format_issues issues info now).data) := by
  have hne : issues ≠ [] := by
    intro h0
    subst h0
    simp at h
  obtain ⟨e, he, hk, hi⟩ := exists_group_entry issues i h
  rw [format_issues_eq issues hne info now]
  have hchunk : ∀ s : List Char,
      s <:+: (("<h2>" ++ _format_check_name e.1 ++ "</h2>\n" ++
          strConcat (e.2.map issueBlock)) : String).data →
      s <:+: ((htmlHeader now issues.length ++
        (match info with
         | some e2 => "<p class=\"execution-info\">Execution mode: " ++ e2 ++ "</p>\n"
         | none => "") ++
        strConcat ((group_by_check issues).map (fun e2 =>
          "<h2>" ++ _format_check_name e2.1 ++ "</h2>\n" ++
            strConcat (e2.2.map issueBlock))) ++
        htmlFooter) : String).data := by
    intro s hs
    have h1 := mem_seg_strConcat
      (fun e2 => "<h2>" ++ _format_check_name e2.1 ++ "</h2>\n" ++
        strConcat (e2.2.map issueBlock)) (group_by_check issues) e he
    have h2 := hs.trans h1
    have h3 := seg_extend_left ((htmlHeader now issues.length ++
      (match info with
       | some e2 => "<p class=\"execution-info\">Execution mode: " ++ e2 ++ "</p>\n"
       | none => "")) : String).data h2
    have h4 := seg_extend_right (htmlFooter : String).data h3
    simpa [String.data_append] using h4
  constructor
  · apply hchunk
    rw [hk]
    exact ⟨[], (strConcat (e.2.map issueBlock)).data, by simp [String.data_append]⟩
  · apply hchunk
    have h1 := mem_seg_strConcat issueBlock e.2 i hi
    have h2 := seg_extend_left (("<h2>" ++ _format_check_name e.1 ++ "</h2>\n") : String).data h1
    simpa [String.data_append] using h2

theorem escape_html_no_specials (s : String) :
    ∀ c ∈ (_escape_html s).data, c ≠ '<' ∧ c ≠ '>' ∧ c ≠ '"' ∧ c ≠ '\'' := by
  unfold _escape_html
  induction s.data with
  | nil =>
    intro c hc
    simp [strConcat] at hc
  | cons a rest ih =>
    intro c hc
    simp only [List.map_cons, strConcat, String.data_append, List.mem_append] at hc
    rcases hc with hc | hc
    · unfold escapeChar at hc
      by_cases h1 : a = '&'
      · simp only [h1, if_true] at hc
        simp at hc
        rcases hc with rfl | rfl | rfl | rfl | rfl <;> decide
      · simp only [h1, if_false] at hc
        by_cases h2 : a = '<'
        · simp only [h2, if_true] at hc
          simp at hc
          rcases hc with rfl | rfl | rfl | rfl <;> decide
        · simp only [h2, if_false] at hc
          by_cases h3 : a = '>'
          · simp only [h3, if_true] at hc
            simp at hc
            rcases hc with rfl | rfl | rfl | rfl <;> decide
          · simp only [h3, if_false] at hc
            by_cases h4 : a = '"'
            · simp only [h4, if_true] at hc
              simp at hc
              rcases hc with rfl | rfl | rfl | rfl | rfl | rfl <;> decide
            · simp only [h4, if_false] at hc
              by_cases h5 : a = '\''
              · simp only [h5, if_true] at hc
                simp at hc
                rcases hc with rfl | rfl | rfl | rfl | rfl | rfl <;> decide
              · simp only [h5, if_false] at hc
                have : c = a := by
                  simpa [String.singleton] using hc
                subst this
                exact ⟨h2, h3, h4, h5⟩
    · exact ih c hc

theorem message_in_issueBlock (i : Issue) :
    i.message.data <:+: (issueBlock i).data := by
  refine ⟨("\n                <div class=\"issue severity-" ++ i.severity ++ "\">\n" ++
      "                    <strong>[" ++ str_upper i.severity ++ "]</strong> ").data,
    ("\n                " ++
      (if i.details ≠ "" then
        "<div class=\"details\">" ++ i.details ++ "</div>" else "") ++
      (if i.has_extra_data then _format_extra_data i.extra_data else "") ++
      "</div>\n").data, ?_⟩
  simp [issueBlock, String.data_append]

theorem details_in_issueBlock (i : Issue) (hdet : i.details ≠ "") :
    i.details.data <:+: (issueBlock i).data := by
  refine ⟨("\n                <div class=\"issue severity-" ++ i.severity ++ "\">\n" ++
      "                    <strong>[" ++ str_upper i.severity ++ "]</strong> " ++
      i.message ++ "\n                " ++ "<div class=\"details\">").data,
    ("</div>" ++
      (if i.has_extra_data then _format_extra_data i.extra_data else "") ++
      "</div>\n").data, ?_⟩
  simp [issueBlock, hdet, String.data_append]

theorem extraData_in_issueBlock (i : Issue) (hx : i.has_extra_data = true) :
    (_format_extra_data i.extra_data).data <:+: (issueBlock i).data := by
  refine ⟨("\n                <div class=\"issue severity-" ++ i.severity ++ "\">\n" ++
      "                    <strong>[" ++ str_upper i.severity ++ "]</strong> " ++
      i.message ++ "\n                " ++
      (if i.details ≠ "" then
        "<div class=\"details\">" ++ i.details ++ "</div>" else "")).data,
    ("</div>\n").data, ?_⟩
  simp [issueBlock, hx, String.data_append]

theorem item_in_formatList (items : List String) (title : String) (m : Nat)
    (x : String) (hx : x ∈ items.take m) :
    (_escape_html x).data <:+: (_format_list items title m).data := by
  have h0 : (_escape_html x).data <:+: (("<li>" ++ _escape_html x ++ "</li>") : String).data :=
    ⟨("<li>" : String).data, ("</li>" : String).data, by simp [String.data_append]⟩
  have h1 := h0.trans (mem_seg_strConcat
    (fun item => "<li>" ++ _escape_html item ++ "</li>") (items.take m) x hx)
  have h2 := seg_extend_left (("<div class=\"extra-data-section\">" ++
    "<div class=\"extra-data-title\">" ++ title ++ ":</div>" ++
    "<ul class=\"extra-data-list\">") : String).data h1
  have h3 := seg_extend_right (("</ul>" ++
    (if items.length > m then
      "<div class=\"truncation-notice\">Showing first " ++ toString m ++
        " of " ++ toString items.length ++ " items</div>"
     else "") ++ "</div>") : String).data h2
  simpa [_format_list, String.data_append] using h3

theorem pair_in_formatSummary (summary : List (String × String))
    (kv : String × String) (hkv : kv ∈ summary) :
    (_escape_html kv.1).data <:+: (_format_summary summary).data ∧
    (_escape_html kv.2).data <:+: (_format_summary summary).data := by
  have hmem := mem_seg_strConcat
    (fun p => "<li><strong>" ++ _escape_html p.1 ++ ":</strong> " ++
      _escape_html p.2 ++ "</li>") summary kv hkv
  have hk : (_escape_html kv.1).data <:+:
      (("<li><strong>" ++ _escape_html kv.1 ++ ":</strong> " ++
        _escape_html kv.2 ++ "</li>") : String).data :=
    ⟨("<li><strong>" : String).data,
      ((":</strong> " ++ _escape_html kv.2 ++ "</li>") : String).data,
      by simp [String.data_append]⟩
  have hv : (_escape_html kv.2).data <:+:
      (("<li><strong>" ++ _escape_html kv.1 ++ ":</strong> " ++
        _escape_html kv.2 ++ "</li>") : String).data :=
    ⟨(("<li><strong>" ++ _escape_html kv.1 ++ ":</strong> ") : String).data,
      ("</li>" : String).data, by simp [String.data_append]⟩
  constructor
  · have h2 := seg_extend_left (("<div class=\"extra-data-section\">" ++
      "<div class=\"extra-data-title\">Summary:</div>" ++
      "<ul class=\"extra-data-list\">") : String).data (hk.trans hmem)
    have h3 := seg_extend_right (("</ul></div>") : String).data h2
    simpa [_format_summary, String.data_append] using h3
  · have h2 := seg_extend_left (("<div class=\"extra-data-section\">" ++
      "<div class=\"extra-data-title\">Summary:</div>" ++
      "<ul class=\"extra-data-list\">") : String).data (hv.trans hmem)
    have h3 := seg_extend_right (("</ul></div>") : String).data h2
    simpa [_format_summary, String.data_append] using h3

set_option maxRecDepth 8192 in
theorem header_in_formatTable (r0 : List (String × String))
    (rest : List (List (String × String))) (m : Nat) (hname : String)
    (hh : hname ∈ r0.map Prod.fst) :
    (_escape_html hname).data <:+: (_format_table (r0 :: rest) m).data := by
  have h0 : (_escape_html hname).data <:+:
      (("<th>" ++ _escape_html hname ++ "</th>") : String).data :=
    ⟨("<th>" : String).data, ("</th>" : String).data, by simp [String.data_append]⟩
  have h1 := h0.trans (mem_seg_strConcat
    (fun h => "<th>" ++ _escape_html h ++ "</th>") (r0.map Prod.fst) hname hh)
  have h2 := seg_extend_left (("<div class=\"extra-data-section\">" ++
    "<div class=\"extra-data-title\">Detailed Records:</div>" ++
    "<table class=\"extra-data-table\">" ++ "<thead><tr>") : String).data h1
  have h3 := seg_extend_right (("</tr></thead>" ++ "<tbody>" ++
    strConcat (((r0 :: rest).take m).map (fun record =>
      "<tr>" ++
      strConcat ((r0.map Prod.fst).map (fun h =>
        "<td>" ++ _escape_html (pyGet record h) ++ "</td>")) ++
      "</tr>")) ++
    "</tbody></table>" ++
    (if (r0 :: rest).length > m then
      "<div class=\"truncation-notice\">Showing first " ++ toString m ++
        " of " ++ toString (r0 :: rest).length ++ " records</div>"
     else "") ++ "</div>") : String).data h2
  simpa [_format_table, String.data_append] using h3

set_option maxRecDepth 8192 in
theorem cell_in_formatTable (r0 : List (String × String))
    (rest : List (List (String × String))) (m : Nat)
    (record : List (String × String)) (hrec : record ∈ (r0 :: rest).take m)
    (hname : String) (hh : hname ∈ r0.map Prod.fst) :
    (_escape_html (pyGet record hname)).data <:+: (_format_table (r0 :: rest) m).data := by
  have h0 : (_escape_html (pyGet record hname)).data <:+:
      (("<td>" ++ _escape_html (pyGet record hname) ++ "</td>") : String).data :=
    ⟨("<td>" : String).data, ("</td>" : String).data, by simp [String.data_append]⟩
  have h1 := h0.trans (mem_seg_strConcat
    (fun h => "<td>" ++ _escape_html (pyGet record h) ++ "</td>")
    (r0.map Prod.fst) hname hh)
  have h2 : (_escape_html (pyGet record hname)).data <:+:
      (("<tr>" ++ strConcat ((r0.map Prod.fst).map (fun h =>
        "<td>" ++ _escape_html (pyGet record h) ++ "</td>")) ++ "</tr>") : String).data := by
    have := seg_extend_left (("<tr>" : String).data) h1
    have := seg_extend_right (("</tr>" : String).data) this
    simpa [String.data_append] using this
  have h3 := h2.trans (mem_seg_strConcat
    (fun record2 => "<tr>" ++ strConcat ((r0.map Prod.fst).map (fun h =>
      "<td>" ++ _escape_html (pyGet record2 h) ++ "</td>")) ++ "</tr>")
    ((r0 :: rest).take m) record hrec)
  have h4 := seg_extend_left (("<div class=\"extra-data-section\">" ++
    "<div class=\"extra-data-title\">Detailed Records:</div>" ++
    "<table class=\"extra-data-table\">" ++ "<thead><tr>" ++
    strConcat ((r0.map Prod.fst).map (fun h =>
      "<th>" ++ _escape_html h ++ "</th>")) ++
    "</tr></thead>" ++ "<tbody>") : String).data h3
  have h5 := seg_extend_right (("</tbody></table>" ++
    (if (r0 :: rest).length > m then
      "<div class=\"truncation-notice\">Showing first " ++ toString m ++
        " of " ++ toString (r0 :: rest).length ++ " records</div>"
     else "") ++ "</div>") : String).data h4
  simpa [_format_table, String.data_append] using h5

theorem entityList_in_extraData (ed : ExtraData) (hne : ed.entity_ids.isEmpty = false) :
    (_format_list ed.entity_ids "Entity IDs" MAX_LIST_ITEMS).data <:+:
      (_format_extra_data ed).data := by
  refine ⟨("<div class=\"extra-data\">" : String).data,
    (((if ¬ ed.invalid_values.isEmpty then
        _format_list ed.invalid_values "Invalid Values" MAX_LIST_ITEMS else "") ++
      (if ¬ ed.records.isEmpty then _format_table ed.records MAX_TABLE_ROWS else "") ++
      (if ¬ ed.summary.isEmpty then _format_summary ed.summary else "") ++
      "</div>") : String).data, ?_⟩
  simp [_format_extra_data, hne, String.data_append]

theorem invalidList_in_extraData (ed : ExtraData)
    (hne : ed.invalid_values.isEmpty = false) :
    (_format_list ed.invalid_values "Invalid Values" MAX_LIST_ITEMS).data <:+:
      (_format_extra_data ed).data := by
  refine ⟨(("<div class=\"extra-data\">" ++
      (if ¬ ed.entity_ids.isEmpty then
        _format_list ed.entity_ids "Entity IDs" MAX_LIST_ITEMS else "")) : String).data,
    (((if ¬ ed.records.isEmpty then _format_table ed.records MAX_TABLE_ROWS else "") ++
      (if ¬ ed.summary.isEmpty then _format_summary ed.summary else "") ++
      "</div>") : String).data, ?_⟩
  simp [_format_extra_data, hne, String.data_append]

theorem table_in_extraData (ed : ExtraData) (hne : ed.records.isEmpty = false) :
    (_format_table ed.records MAX_TABLE_ROWS).data <:+:
      (_format_extra_data ed).data := by
  refine ⟨(("<div class=\"extra-data\">" ++
      (if ¬ ed.entity_ids.isEmpty then
        _format_list ed.entity_ids "Entity IDs" MAX_LIST_ITEMS else "") ++
      (if ¬ ed.invalid_values.isEmpty then
        _format_list ed.invalid_values "Invalid Values" MAX_LIST_ITEMS else "")) : String).data,
    (((if ¬ ed.summary.isEmpty then _format_summary ed.summary else "") ++
      "</div>") : String).data, ?_⟩
  simp [_format_extra_data, hne, String.data_append]

theorem summary_in_extraData (ed : ExtraData) (hne : ed.summary.isEmpty = false) :
    (_format_summary ed.summary).data <:+: (_format_extra_data ed).data := by
  refine ⟨(("<div class=\"extra-data\">" ++
      (if ¬ ed.entity_ids.isEmpty then
        _format_list ed.entity_ids "Entity IDs" MAX_LIST_ITEMS else "") ++
      (if ¬ ed.invalid_values.isEmpty then
        _format_list ed.invalid_values "Invalid Values" MAX_LIST_ITEMS else "") ++
      (if ¬ ed.records.isEmpty then _format_table ed.records MAX_TABLE_ROWS else "")) : String).data,
    (("</div>" : String).data), ?_⟩
  simp [_format_extra_data, hne, String.data_append]

theorem execInfo_in_format (issues : List Issue) (hne : issues ≠ [])
    (e now : String) :
    ("Execution mode: " ++ e).data <:+: (format_issues issues (some e) now).data := by
  rw [format_issues_eq issues hne (some e) now]
  refine ⟨((htmlHeader now issues.length ++ "<p class=\"execution-info\">") : String).data,
    (("</p>\n" ++
      strConcat ((group_by_check issues).map (fun e2 =>
        "<h2>" ++ _format_check_name e2.1 ++ "</h2>\n" ++
          strConcat (e2.2.map issueBlock))) ++
      htmlFooter) : String).data, ?_⟩
  simp [String.data_append]

/-- C6 (amended): the report escapes exactly the `extra_data` payload: every
rendered list item, summary key and value, table header and table cell is
embedded through `_escape_html`, whose output never contains the raw
characters `<`, `>`, `"` or an apostrophe; the issue `message`, `details`,
the (formatted) check names and the execution-info string are embedded
verbatim, without escaping. -/
theorem format_issues_escaping (issues : List Issue) (info : Option String)
    (now : String) :
    (∀ s : String, ∀ c ∈ (_escape_html s).data,
      c ≠ '<' ∧ c ≠ '>' ∧ c ≠ '"' ∧ c ≠ '\'')
    ∧ (∀ i ∈ issues,
        i.message.data <:+: (format_issues issues info now).data
        ∧ ("<h2>" ++ _format_check_name i.check_name ++ "</h2>\n").data <:+:
            (format_issues issues info now).data
        ∧ (i.details ≠ "" →
            i.details.data <:+: (format_issues issues info now).data)
        ∧ (∀ x ∈ i.extra_data.entity_ids.take MAX_LIST_ITEMS,
            (_escape_html x).data <:+: (format_issues issues info now).data)
        ∧ (∀ x ∈ i.extra_data.invalid_values.take MAX_LIST_ITEMS,
            (_escape_html x).data <:+: (format_issues issues info now).data)
        ∧ (∀ kv ∈ i.extra_data.summary,
            (_escape_html kv.1).data <:+: (format_issues issues info now).data ∧
            (_escape_html kv.2).data <:+: (format_issues issues info now).data)
        ∧ (∀ r0 rest, i.extra_data.records = r0 :: rest →
            (∀ hname ∈ r0.map Prod.fst,
              (_escape_html hname).data <:+: (format_issues issues info now).data)
            ∧ (∀ record ∈ i.extra_data.records.take MAX_TABLE_ROWS,
                ∀ hname ∈ r0.map Prod.fst,
                (_escape_html (pyGet record hname)).data <:+:
                  (format_issues issues info now).data)))
    ∧ (∀ e, info = some e → issues ≠ [] →
        ("Execution mode: " ++ e).data <:+: (format_issues issues info now).data) := by
  refine ⟨escape_html_no_specials, ?_, ?_⟩
  · intro i hi
    have hblock := (issueBlock_infix_format issues info now i hi).2
    have hh2 := (issueBlock_infix_format issues info now i hi).1
    refine ⟨(message_in_issueBlock i).trans hblock, hh2,
      fun hd => (details_in_issueBlock i hd).trans hblock, ?_, ?_, ?_, ?_⟩
    · intro x hx
      have hnn : i.extra_data.entity_ids ≠ [] := by
        intro h0
        rw [h0] at hx
        simp at hx
      have hne := isEmpty_false_of_ne_nil hnn
      have hxd : i.has_extra_data = true := by
        simp [Issue.has_extra_data, hne]
      exact (item_in_formatList _ _ _ x hx).trans
        ((entityList_in_extraData _ hne).trans
          ((extraData_in_issueBlock i hxd).trans hblock))
    · intro x hx
      have hnn : i.extra_data.invalid_values ≠ [] := by
        intro h0
        rw [h0] at hx
        simp at hx
      have hne := isEmpty_false_of_ne_nil hnn
      have hxd : i.has_extra_data = true := by
        simp [Issue.has_extra_data, hne]
      exact (item_in_formatList _ _ _ x hx).trans
        ((invalidList_in_extraData _ hne).trans
          ((extraData_in_issueBlock i hxd).trans hblock))
    · intro kv hkv
      have hnn : i.extra_data.summary ≠ [] := by
        intro h0
        rw [h0] at hkv
        simp at hkv
      have hne := isEmpty_false_of_ne_nil hnn
      have hxd : i.has_extra_data = true := by
        simp [Issue.has_extra_data, hne]
      have hrest := (summary_in_extraData _ hne).trans
        ((extraData_in_issueBlock i hxd).trans hblock)
      exact ⟨(pair_in_formatSummary _ kv hkv).1.trans hrest,
        (pair_in_formatSummary _ kv hkv).2.trans hrest⟩
    · intro r0 rest hr
      have hne : i.extra_data.records.isEmpty = false := by
        rw [hr]
        rfl
      have hxd : i.has_extra_data = true := by
        simp [Issue.has_extra_data, hne]
      have hrest := (table_in_extraData _ hne).trans
        ((extraData_in_issueBlock i hxd).trans hblock)
      constructor
      · intro hname hh
        have h1 := header_in_formatTable r0 rest MAX_TABLE_ROWS hname hh
        rw [← hr] at h1
        exact h1.trans hrest
      · intro record hrec hname hh
        rw [hr] at hrec
        have h1 := cell_in_formatTable r0 rest MAX_TABLE_ROWS record hrec hname hh
        rw [← hr] at h1
        exact h1.trans hrest
  · intro e he hne
    rw [he]
    exact execInfo_in_format issues hne e now

/-- Concrete instantiation of `send_report_empty_iff_no_delivery`: an empty
aggregate produces no delivery. -/
theorem send_report_empty_iff_no_delivery_witness :
    send_report ⟨[], some "All checks executed"⟩ "2024-01-01 00:00:00" =
      SendOutcome.noSend :=
  (send_report_empty_iff_no_delivery ⟨[], some "All checks executed"⟩
      "2024-01-01 00:00:00").1.2 rfl

/-- Concrete instantiation of `format_issues_escaping`: the escaped form of
the `extra_data` item "x<y" appears in the rendered report. -/
theorem format_issues_escaping_witness :
    (_escape_html "x<y").data <:+:
      (format_issues [edIssue] none "2024-01-01 00:00:00").data :=
  ((format_issues_escaping [edIssue] none "2024-01-01 00:00:00").2.1 edIssue
    (by decide)).2.2.2.1 "x<y" (by decide)

theorem listHasSeg_iff (needle : List Char) :
    ∀ hs : List Char, listHasSeg needle hs = true ↔ needle <:+: hs := by
  intro hay
  induction hay with
  | nil =>
    simp only [listHasSeg, List.isEmpty_iff]
    constructor
    · rintro rfl
      exact List.infix_refl _
    · intro h
      simpa using List.eq_nil_of_infix_nil h
  | cons c t ih =>
    simp only [listHasSeg, Bool.or_eq_true, List.isPrefixOf_iff_prefix, ih]
    exact ( List.infix_cons_iff).symm

set_option maxRecDepth 100000 in
/-- C6 counterexample: the issue message is embedded raw in the HTML —
`<zqz>` appears verbatim in the rendered report while its escaped form
`&lt;zqz&gt;` does not, so not every free-text field of the issue is
escaped. -/
theorem format_issues_message_unescaped :
    (("<zqz>" : String).data <:+:
      (format_issues [xssIssue] none "2024-01-01 00:00:00").data)
    ∧ ¬ (("&lt;zqz&gt;" : String).data <:+:
      (format_issues [xssIssue] none "2024-01-01 00:00:00").data) := by
  constructor
  · exact (message_in_issueBlock xssIssue).trans
      ((issueBlock_infix_format [xssIssue] none "2024-01-01 00:00:00" xssIssue
        (by decide)).2)
  · rw [← listHasSeg_iff]
    decide

theorem extractLis_cons_skip (c : Char) (rest : List Char)
    (h : ¬ (c = '<' ∧ rest.take 3 = ['l', 'i', '>'])) :
    extractLis (c :: rest) = extractLis rest := by
  rw [extractLis]
  simp [h]

theorem afterUl_cons_skip (c : Char) (rest : List Char)
    (h : ¬ (c = '<' ∧ rest.take 4 = ['/', 'u', 'l', '>'])) :
    afterUl (c :: rest) = afterUl rest := by
  rw [afterUl]
  simp [h]

theorem extractLis_append_safe (s : List Char) (hs : liSafe s = true) :
    ∀ t : List Char, extractLis (s ++ t) = extractLis t := by
  induction s with
  | nil => intro t; rfl
  | cons c rest ih =>
    intro t
    rw [liSafe] at hs
    simp only [Bool.and_eq_true] at hs
    obtain ⟨hc, hrest⟩ := hs
    rw [List.cons_append, extractLis_cons_skip, ih hrest]
    rintro ⟨hceq, htake⟩
    rw [hceq, if_pos rfl, Bool.and_eq_true] at hc
    obtain ⟨hne, hlen⟩ := hc
    rw [List.take_append_of_le_length (of_decide_eq_true hlen)] at htake
    exact (of_decide_eq_true hne) htake

theorem afterUl_append_safe (s : List Char) (hs : ulSafe s = true) :
    ∀ t : List Char, afterUl (s ++ t) = afterUl t := by
  induction s with
  | nil => intro t; rfl
  | cons c rest ih =>
    intro t
    rw [ulSafe] at hs
    simp only [Bool.and_eq_true] at hs
    obtain ⟨hc, hrest⟩ := hs
    rw [List.cons_append, afterUl_cons_skip, ih hrest]
    rintro ⟨hceq, htake⟩
    rw [hceq, if_pos rfl, Bool.and_eq_true] at hc
    obtain ⟨hne, hlen⟩ := hc
    rw [List.take_append_of_le_length (of_decide_eq_true hlen)] at htake
    exact (of_decide_eq_true hne) htake

theorem liSafe_of_nolt (s : List Char) (h : ∀ c ∈ s, c ≠ '<') :
    liSafe s = true := by
  induction s with
  | nil => rfl
  | cons c rest ih =>
    rw [liSafe]
    have hc : ¬ c = '<' := h c (List.mem_cons_self _ _)
    simp only [hc, if_false, Bool.true_and]
    exact ih (fun x hx => h x (List.mem_cons_of_mem _ hx))

theorem ulSafe_of_nolt (s : List Char) (h : ∀ c ∈ s, c ≠ '<') :
    ulSafe s = true := by
  induction s with
  | nil => rfl
  | cons c rest ih =>
    rw [ulSafe]
    have hc : ¬ c = '<' := h c (List.mem_cons_self _ _)
    simp only [hc, if_false, Bool.true_and]
    exact ih (fun x hx => h x (List.mem_cons_of_mem _ hx))

theorem takeWhile_nolt_append (a : List Char) (t : List Char)
    (ha : ∀ c ∈ a, c ≠ '<') :
    (a ++ '<' :: t).takeWhile (fun x => x ≠ '<') = a ∧
    (a ++ '<' :: t).dropWhile (fun x => x ≠ '<') = '<' :: t := by
  induction a with
  | nil => simp [List.takeWhile, List.dropWhile]
  | cons c rest ih =>
    have hc : c ≠ '<' := ha c (List.mem_cons_self _ _)
    have ih2 := ih (fun x hx => ha x (List.mem_cons_of_mem _ hx))
    have hdec : decide (c ≠ '<') = true := by simp [hc]
    rw [List.cons_append]
    constructor
    · simp only [List.takeWhile_cons, hdec, if_true]
      rw [ih2.1]
    · simp only [List.dropWhile_cons, hdec, if_true]
      exact ih2.2

theorem extractLis_li_block (x : String) (t : List Char)
    (hx : ∀ c ∈ (_escape_html x).data, c ≠ '<') :
    extractLis ((("<li>" ++ _escape_html x ++ "</li>") : String).data ++ t) =
      (_escape_html x).data :: extractLis t := by
  have e1 : (("<li>" ++ _escape_html x ++ "</li>") : String).data ++ t =
      '<' :: 'l' :: 'i' :: '>' ::
        ((_escape_html x).data ++ ('<' :: '/' :: 'l' :: 'i' :: '>' :: t)) := by
    simp [String.data_append]
  rw [e1, extractLis]
  rw [if_pos ⟨rfl, rfl⟩]
  simp only [List.drop_succ_cons, List.drop_zero]
  rw [(takeWhile_nolt_append _ _ hx).1, (takeWhile_nolt_append _ _ hx).2]
  rw [show ('<' :: '/' :: 'l' :: 'i' :: '>' :: t) = ['<', '/', 'l', 'i', '>'] ++ t from rfl,
    extractLis_append_safe _ (by decide)]

theorem afterUl_ulclose (t : List Char) :
    afterUl (("</ul>" : String).data ++ t) = t := by
  rw [show ("</ul>" : String).data ++ t = '<' :: '/' :: 'u' :: 'l' :: '>' :: t from rfl,
    afterUl, if_pos ⟨rfl, rfl⟩]
  rfl

theorem afterUl_li_block (x : String) (t : List Char)
    (hx : ∀ c ∈ (_escape_html x).data, c ≠ '<') :
    afterUl ((("<li>" ++ _escape_html x ++ "</li>") : String).data ++ t) =
      afterUl t := by
  have e1 : (("<li>" ++ _escape_html x ++ "</li>") : String).data ++ t =
      '<' :: ('l' :: 'i' :: '>' ::
        ((_escape_html x).data ++ ('<' :: '/' :: 'l' :: 'i' :: '>' :: t))) := by
    simp [String.data_append]
  rw [e1, afterUl_cons_skip]
  · rw [show ('l' :: 'i' :: '>' ::
        ((_escape_html x).data ++ ('<' :: '/' :: 'l' :: 'i' :: '>' :: t))) =
      ['l', 'i', '>'] ++ ((_escape_html x).data ++ ('<' :: '/' :: 'l' :: 'i' :: '>' :: t))
      from rfl]
    rw [afterUl_append_safe _ (by decide), afterUl_append_safe _ (ulSafe_of_nolt _ hx)]
    rw [show ('<' :: '/' :: 'l' :: 'i' :: '>' :: t) = ['<', '/', 'l', 'i', '>'] ++ t from rfl,
      afterUl_append_safe _ (by decide)]
  · rintro ⟨_, htk⟩
    simp [List.take] at htk

theorem extractLis_blocks (items : List String) (t : List Char) :
    extractLis ((strConcat (items.map (fun item =>
        "<li>" ++ _escape_html item ++ "</li>"))).data ++ t) =
      items.map (fun x => (_escape_html x).data) ++ extractLis t := by
  induction items with
  | nil => simp [strConcat]
  | cons x rest ih =>
    have e1 : (strConcat ((x :: rest).map (fun item =>
        "<li>" ++ _escape_html item ++ "</li>"))).data ++ t =
        (("<li>" ++ _escape_html x ++ "</li>") : String).data ++
          ((strConcat (rest.map (fun item =>
            "<li>" ++ _escape_html item ++ "</li>"))).data ++ t) := by
      simp [strConcat, String.data_append]
    rw [e1, extractLis_li_block x _ (fun c hc => (escape_html_no_specials x c hc).1), ih]
    simp

theorem afterUl_blocks (items : List String) (t : List Char) :
    afterUl ((strConcat (items.map (fun item =>
        "<li>" ++ _escape_html item ++ "</li>"))).data ++ t) = afterUl t := by
  induction items with
  | nil => simp [strConcat]
  | cons x rest ih =>
    have e1 : (strConcat ((x :: rest).map (fun item =>
        "<li>" ++ _escape_html item ++ "</li>"))).data ++ t =
        (("<li>" ++ _escape_html x ++ "</li>") : String).data ++
          ((strConcat (rest.map (fun item =>
            "<li>" ++ _escape_html item ++ "</li>"))).data ++ t) := by
      simp [strConcat, String.data_append]
    rw [e1, afterUl_li_block x _ (fun c hc => (escape_html_no_specials x c hc).1), ih]

theorem formatList_scan (items : List String) (title : String) (m : Nat)
    (htitle : ∀ c ∈ title.data, c ≠ '<') :
    extractLis (_format_list items title m).data =
      (items.take m).map (fun x => (_escape_html x).data) ++
        extractLis (((if items.length > m then
          "<div class=\"truncation-notice\">Showing first " ++ toString m ++
            " of " ++ toString items.length ++ " items</div>"
         else "") ++ "</div>" : String)).data
    ∧ afterUl (_format_list items title m).data =
      (((if items.length > m then
          "<div class=\"truncation-notice\">Showing first " ++ toString m ++
            " of " ++ toString items.length ++ " items</div>"
         else "") ++ "</div>" : String)).data := by
  have hd : (_format_list items title m).data =
      ("<div class=\"extra-data-section\">" : String).data ++
      (("<div class=\"extra-data-title\">" : String).data ++
      (title.data ++
      ((":</div>" : String).data ++
      (("<ul class=\"extra-data-list\">" : String).data ++
      ((strConcat ((items.take m).map (fun item =>
          "<li>" ++ _escape_html item ++ "</li>"))).data ++
      (("</ul>" : String).data ++
      (((if items.length > m then
          "<div class=\"truncation-notice\">Showing first " ++ toString m ++
            " of " ++ toString items.length ++ " items</div>"
         else "") ++ "</div>" : String)).data)))))) := by
    simp [_format_list, String.data_append]
  constructor
  · rw [hd, extractLis_append_safe _ (by decide), extractLis_append_safe _ (by decide),
      extractLis_append_safe _ (liSafe_of_nolt _ htitle),
      extractLis_append_safe _ (by decide), extractLis_append_safe _ (by decide),
      extractLis_blocks, extractLis_append_safe _ (by decide)]
  · rw [hd, afterUl_append_safe _ (by decide), afterUl_append_safe _ (by decide),
      afterUl_append_safe _ (ulSafe_of_nolt _ htitle),
      afterUl_append_safe _ (by decide), afterUl_append_safe _ (by decide),
      afterUl_blocks, afterUl_ulclose]

set_option maxRecDepth 8192 in
/-- C8: with the configured maximum `MAX_LIST_ITEMS = 10`, a scalar list of
15 items renders exactly its first 10 items (each through `_escape_html`),
in order, followed by a truncation notice stating 10 of 15; a list of at
most 10 items renders all items and emits no truncation notice (nothing but
the closing `</div>` follows the list).  `extractLis` reads the rendered
`<li>` contents back out of the HTML, `afterUl` what follows `</ul>`. -/
theorem formatList_truncation (items : List String) (title : String)
    (htitle : ∀ c ∈ title.data, c ≠ '<') :
    MAX_LIST_ITEMS = 10
    ∧ (items.length = 15 →
        extractLis (_format_list items title MAX_LIST_ITEMS).data =
          (items.take MAX_LIST_ITEMS).map (fun x => (_escape_html x).data)
        ∧ afterUl (_format_list items title MAX_LIST_ITEMS).data =
          ("<div class=\"truncation-notice\">Showing first 10 of 15 items</div></div>" : String).data)
    ∧ (items.length ≤ MAX_LIST_ITEMS →
        extractLis (_format_list items title MAX_LIST_ITEMS).data =
          items.map (fun x => (_escape_html x).data)
        ∧ afterUl (_format_list items title MAX_LIST_ITEMS).data =
          ("</div>" : String).data) := by
  obtain ⟨hex, haf⟩ := formatList_scan items title MAX_LIST_ITEMS htitle
  refine ⟨rfl, ?_, ?_⟩
  · intro h15
    rw [h15] at hex haf
    have hgt : 15 > MAX_LIST_ITEMS := by decide
    rw [if_pos hgt] at hex haf
    constructor
    · rw [hex]
      have hnil : extractLis ((("<div class=\"truncation-notice\">Showing first " ++
          toString MAX_LIST_ITEMS ++ " of " ++ toString 15 ++ " items</div>") ++
          "</div>" : String)).data = [] := by
        rw [← List.append_nil ((("<div class=\"truncation-notice\">Showing first " ++
          toString MAX_LIST_ITEMS ++ " of " ++ toString 15 ++ " items</div>") ++
          "</div>" : String)).data, extractLis_append_safe _ (by decide)]
        simp [extractLis]
      rw [hnil, List.append_nil]
    · rw [haf]
      decide
  · intro hle
    have hng : ¬ (items.length > MAX_LIST_ITEMS) := by omega
    rw [if_neg hng] at hex haf
    constructor
    · rw [hex, List.take_of_length_le hle]
      have hnil : extractLis (("" ++ "</div>" : String)).data = [] := by
        rw [← List.append_nil (("" ++ "</div>" : String)).data,
          extractLis_append_safe _ (by decide)]
        simp [extractLis]
      rw [hnil, List.append_nil]
    · rw [haf]
      decide

/-- Concrete instantiation of `formatList_truncation` on a 15-item list. -/
theorem formatList_truncation_witness :
    extractLis (_format_list
        ["a1", "a2", "a3", "a4", "a5", "a6", "a7", "a8", "a9", "a10",
         "a11", "a12", "a13", "a14", "a15"] "Entity IDs" MAX_LIST_ITEMS).data =
      ((["a1", "a2", "a3", "a4", "a5", "a6", "a7", "a8", "a9", "a10",
         "a11", "a12", "a13", "a14", "a15"]).take MAX_LIST_ITEMS).map
        (fun x => (_escape_html x).data)
    ∧ afterUl (_format_list
        ["a1", "a2", "a3", "a4", "a5", "a6", "a7", "a8", "a9", "a10",
         "a11", "a12", "a13", "a14", "a15"] "Entity IDs" MAX_LIST_ITEMS).data =
      ("<div class=\"truncation-notice\">Showing first 10 of 15 items</div></div>" : String).data :=
  (formatList_truncation
      ["a1", "a2", "a3", "a4", "a5", "a6", "a7", "a8", "a9", "a10",
       "a11", "a12", "a13", "a14", "a15"] "Entity IDs" (by decide)).2.1 (by decide)

end DQAS
